import Mathlib

/-!
Verification of the spectral-index core of `satellite-explorer`
(`src/utils/indices.py`): the index registry `COMMON_INDICES`, the band-role
inferencer `guess_band_types`, the availability resolver
`get_available_indices`, and the evaluator `calculate_index`.

Modelling conventions:
* Python floats (NumPy float32 cells) are modelled by `F`: either the
  not-a-number sentinel `F.nan` or an exact rational `F.fin q`.  Rounding and
  overflow to infinity are not modelled; the verified claims depend only on
  NaN creation/propagation and on exact small-value arithmetic, where float32
  arithmetic is exact.
* 2-D NumPy arrays are `Arr := List (List F)`; elementwise operations are
  `List.zipWith` of `List.zipWith`, matching NumPy broadcasting of
  equal-shaped arrays.
* Python dicts (band mappings, the registry) are association lists in
  insertion order; assignment to a fresh key appends, assignment to a present
  key updates in place, as in CPython dicts.
* The regular expressions of `guess_band_types` use only literals, `\b`,
  `.`, `?` on a single atom, and the one negative lookahead `(?!.?2)`; they
  are compiled by hand into token lists (`Tok`) and matched by a total
  backtracking matcher `reSearch` equivalent to `re.search` on these
  patterns.  Word characters are ASCII alphanumerics and underscore, and
  lowercasing is ASCII, as in the band-name strings the program handles.
-/

/-- A float cell: the not-a-number sentinel or an exact finite value. -/
inductive F
  | nan : F
  | fin : ℚ → F
deriving DecidableEq

/-- IEEE addition on the model: NaN absorbs, finite values add exactly. -/
def fadd : F → F → F
  | F.fin a, F.fin b => F.fin (a + b)
  | _, _ => F.nan

/-- IEEE subtraction on the model. -/
def fsub : F → F → F
  | F.fin a, F.fin b => F.fin (a - b)
  | _, _ => F.nan

/-- IEEE multiplication on the model (overflow not modelled). -/
def fmul : F → F → F
  | F.fin a, F.fin b => F.fin (a * b)
  | _, _ => F.nan

/-- IEEE division on the model.  The zero-denominator case is masked out by
`np.divide`'s `where=den != 0` and never reached by the evaluator; it is
mapped to NaN here. -/
def fdiv : F → F → F
  | F.fin a, F.fin b => if b = 0 then F.nan else F.fin (a / b)
  | _, _ => F.nan

/-- The NumPy elementwise comparison `x != 0`: true for NaN (IEEE), and for
any nonzero finite value. -/
def npNe0 : F → Bool
  | F.fin q => decide (q ≠ 0)
  | F.nan => true

/-- A 2-D band array. -/
abbrev Arr := List (List F)

/-- Elementwise binary operation on 2-D arrays (NumPy broadcasting of
equal-shaped arrays). -/
def amap2 (f : F → F → F) (a b : Arr) : Arr :=
  List.zipWith (List.zipWith f) a b

/-- Elementwise unary operation on a 2-D array. -/
def amap (f : F → F) (a : Arr) : Arr :=
  a.map (fun row => row.map f)

/-- The call `np.divide(num, den, out=np.full_like(num, np.nan), where=den != 0)`:
cells where the denominator compares equal to zero keep the NaN fill. -/
def npDivide (num den : Arr) : Arr :=
  amap2 (fun x y => if npNe0 y then fdiv x y else F.nan) num den

/-- Cell access `a[i][j]` as an `Option`. -/
def aGet? (a : Arr) (i j : Nat) : Option F :=
  (a[i]?).bind fun row => row[j]?

/- ### The regular-expression subset used by `guess_band_types` -/

/-- One token of a compiled pattern: a literal, an optional literal (`c?`),
`.` and `.?`, the word boundary `\b`, and the lookahead `(?!.?2)`. -/
inductive Tok
  | lit : Char → Tok
  | litOpt : Char → Tok
  | any : Tok
  | anyOpt : Tok
  | wb : Tok
  | negLook2 : Tok
deriving DecidableEq

/-- Python `\w` restricted to ASCII: alphanumeric or underscore. -/
def isWordChar (c : Char) : Bool :=
  c.isAlphanum || c == '_'

/-- The word boundary `\b` holds between `prev` and the rest of the string iff exactly one
side is a word character (ends of the string count as non-word). -/
def boundaryOk (prev : Option Char) (s : List Char) : Bool :=
  (match prev with | some c => isWordChar c | none => false)
  != (match s with | c :: _ => isWordChar c | [] => false)

/-- Does the lookahead body `.?2` match at the start of `s`?  (`.` does not
match a newline.) -/
def look2 : List Char → Bool
  | '2' :: _ => true
  | c :: '2' :: _ => c != '\n'
  | _ => false

/-- Backtracking match of a token list at the start of `s`; `prev` is the
character just before `s` (for `\b`).  Equivalent to anchored matching of
the corresponding regex. -/
def matchAt : List Tok → Option Char → List Char → Bool
  | [], _, _ => true
  | Tok.lit c :: ts, _, x :: rest => x == c && matchAt ts (some x) rest
  | Tok.lit _ :: _, _, [] => false
  | Tok.any :: ts, _, x :: rest => x != '\n' && matchAt ts (some x) rest
  | Tok.any :: _, _, [] => false
  | Tok.litOpt c :: ts, prev, s =>
      (match s with
       | x :: rest => x == c && matchAt ts (some x) rest
       | [] => false)
      || matchAt ts prev s
  | Tok.anyOpt :: ts, prev, s =>
      (match s with
       | x :: rest => x != '\n' && matchAt ts (some x) rest
       | [] => false)
      || matchAt ts prev s
  | Tok.wb :: ts, prev, s => boundaryOk prev s && matchAt ts prev s
  | Tok.negLook2 :: ts, prev, s => !look2 s && matchAt ts prev s

/-- Try to match at every position of `s`, like `re.search`. -/
def searchFrom (p : List Tok) : Option Char → List Char → Bool
  | prev, s =>
      matchAt p prev s ||
        match s with
        | [] => false
        | c :: rest => searchFrom p (some c) rest

/-- True iff `re.search(p, s)` succeeds, for the supported pattern subset. -/
def reSearch (p : List Tok) (s : List Char) : Bool :=
  searchFrom p none s

/-- Compile a plain string into literal tokens. -/
def lits (s : String) : List Tok :=
  s.data.map Tok.lit

/-- Python `name.lower()` as a character list (ASCII lowercasing). -/
def lowerName (s : String) : List Char :=
  s.data.map Char.toLower

/- ### The pattern table of `guess_band_types`, compiled pattern by pattern.
Each `pat…` definition is the hand compilation of one regex literal from the
source, in the same order. -/

def patB8A : List Tok := [Tok.wb] ++ lits ("b8a") ++ [Tok.wb]
def patB08A : List Tok := [Tok.wb] ++ lits ("b08a") ++ [Tok.wb]
def patNirNarrow : List Tok := lits ("nir") ++ [Tok.anyOpt] ++ lits ("narrow")
def patNirBroad : List Tok := lits ("nir") ++ [Tok.anyOpt] ++ lits ("broad")
def patNearInfra : List Tok := lits ("near") ++ [Tok.anyOpt] ++ lits ("infra")
def patNirWord : List Tok := [Tok.wb] ++ lits ("nir") ++ [Tok.wb]
def patB8 : List Tok := [Tok.wb] ++ lits ("b8") ++ [Tok.wb]
def patB08opt : List Tok := [Tok.wb, Tok.lit 'b', Tok.litOpt '0', Tok.lit '8', Tok.wb]
def patBand8 : List Tok := [Tok.wb] ++ lits ("band") ++ [Tok.anyOpt, Tok.lit '8', Tok.wb]
def patB5 : List Tok := [Tok.wb] ++ lits ("b5") ++ [Tok.wb]
def patB05opt : List Tok := [Tok.wb, Tok.lit 'b', Tok.litOpt '0', Tok.lit '5', Tok.wb]
def patBand5 : List Tok := [Tok.wb] ++ lits ("band") ++ [Tok.anyOpt, Tok.lit '5', Tok.wb]

def patB12 : List Tok := [Tok.wb] ++ lits ("b12") ++ [Tok.wb]
def patB012opt : List Tok := [Tok.wb, Tok.lit 'b', Tok.litOpt '0', Tok.lit '1', Tok.lit '2', Tok.wb]
def patBand12 : List Tok := [Tok.wb] ++ lits ("band") ++ [Tok.anyOpt, Tok.lit '1', Tok.lit '2']
def patSwir2 : List Tok := [Tok.wb] ++ lits ("swir") ++ [Tok.anyOpt, Tok.lit '2', Tok.wb]
def patSwir22 : List Tok := [Tok.wb] ++ lits ("swir") ++ [Tok.anyOpt, Tok.lit '2', Tok.any, Tok.lit '2']
def patB7 : List Tok := [Tok.wb] ++ lits ("b7") ++ [Tok.wb]
def patB07opt : List Tok := [Tok.wb, Tok.lit 'b', Tok.litOpt '0', Tok.lit '7', Tok.wb]
def patBand7 : List Tok := [Tok.wb] ++ lits ("band") ++ [Tok.anyOpt, Tok.lit '7', Tok.wb]

def patB11 : List Tok := [Tok.wb] ++ lits ("b11") ++ [Tok.wb]
def patB011opt : List Tok := [Tok.wb, Tok.lit 'b', Tok.litOpt '0', Tok.lit '1', Tok.lit '1', Tok.wb]
def patBand11 : List Tok := [Tok.wb] ++ lits ("band") ++ [Tok.anyOpt, Tok.lit '1', Tok.lit '1']
def patSwir1 : List Tok := [Tok.wb] ++ lits ("swir") ++ [Tok.anyOpt, Tok.lit '1', Tok.wb]
def patSwir16 : List Tok := [Tok.wb] ++ lits ("swir") ++ [Tok.anyOpt, Tok.lit '1', Tok.any, Tok.lit '6']
def patSwirBare : List Tok := [Tok.wb] ++ lits ("swir") ++ [Tok.wb, Tok.negLook2]
def patB6 : List Tok := [Tok.wb] ++ lits ("b6") ++ [Tok.wb]
def patB06opt : List Tok := [Tok.wb, Tok.lit 'b', Tok.litOpt '0', Tok.lit '6', Tok.wb]
def patBand6 : List Tok := [Tok.wb] ++ lits ("band") ++ [Tok.anyOpt, Tok.lit '6', Tok.wb]

def patRedWord : List Tok := [Tok.wb] ++ lits ("red") ++ [Tok.wb]
def patB4 : List Tok := [Tok.wb] ++ lits ("b4") ++ [Tok.wb]
def patB04opt : List Tok := [Tok.wb, Tok.lit 'b', Tok.litOpt '0', Tok.lit '4', Tok.wb]
def patBand4 : List Tok := [Tok.wb] ++ lits ("band") ++ [Tok.anyOpt, Tok.lit '4']

def patGreenWord : List Tok := [Tok.wb] ++ lits ("green") ++ [Tok.wb]
def patB3 : List Tok := [Tok.wb] ++ lits ("b3") ++ [Tok.wb]
def patB03opt : List Tok := [Tok.wb, Tok.lit 'b', Tok.litOpt '0', Tok.lit '3', Tok.wb]
def patBand3 : List Tok := [Tok.wb] ++ lits ("band") ++ [Tok.anyOpt, Tok.lit '3']

def patBlueWord : List Tok := [Tok.wb] ++ lits ("blue") ++ [Tok.wb]
def patB2 : List Tok := [Tok.wb] ++ lits ("b2") ++ [Tok.wb]
def patB02opt : List Tok := [Tok.wb, Tok.lit 'b', Tok.litOpt '0', Tok.lit '2', Tok.wb]
def patBand2 : List Tok := [Tok.wb] ++ lits ("band") ++ [Tok.anyOpt, Tok.lit '2']
def patCoastal : List Tok := lits ("coastal")
def patAerosol : List Tok := lits ("aerosol")
def patB1 : List Tok := [Tok.wb] ++ lits ("b1") ++ [Tok.wb]
def patB01opt : List Tok := [Tok.wb, Tok.lit 'b', Tok.litOpt '0', Tok.lit '1', Tok.wb]
def patBand1 : List Tok := [Tok.wb] ++ lits ("band") ++ [Tok.anyOpt, Tok.lit '1']

/- The six role names, plus the bare "SWIR" key that the renaming branch at
the end of `guess_band_types` looks for. -/
def roleNIR : String := "NIR"
def roleSWIR2 : String := "SWIR2"
def roleSWIR1 : String := "SWIR1"
def roleRed : String := "Red"
def roleGreen : String := "Green"
def roleBlue : String := "Blue"
def roleSWIR : String := "SWIR"

/-- The pattern list for NIR, most specific (`b8a`) first. -/
def nirPatterns : List (List Tok) :=
  [patB8A, patB08A, patNirNarrow, patNirBroad, patNearInfra,
   patNirWord, patB8, patB08opt, patBand8, patB5, patB05opt, patBand5]

def swir2Patterns : List (List Tok) :=
  [patB12, patB012opt, patBand12, patSwir2, patSwir22,
   patB7, patB07opt, patBand7]

def swir1Patterns : List (List Tok) :=
  [patB11, patB011opt, patBand11, patSwir1, patSwir16,
   patSwirBare, patB6, patB06opt, patBand6]

def redPatterns : List (List Tok) :=
  [patRedWord, patB4, patB04opt, patBand4]

def greenPatterns : List (List Tok) :=
  [patGreenWord, patB3, patB03opt, patBand3]

def bluePatterns : List (List Tok) :=
  [patBlueWord, patB2, patB02opt, patBand2, patCoastal,
   patAerosol, patB1, patB01opt, patBand1]

/-- The `patterns` dict of `guess_band_types`, in its insertion (and hence
iteration) order: NIR, SWIR2, SWIR1, Red, Green, Blue. -/
def patterns : List (String × List (List Tok)) :=
  [ (roleNIR, nirPatterns), (roleSWIR2, swir2Patterns),
    (roleSWIR1, swir1Patterns), (roleRed, redPatterns),
    (roleGreen, greenPatterns), (roleBlue, bluePatterns) ]

/- ### Dictionaries as insertion-ordered association lists -/

/-- A role→position mapping (`band_mapping` in the source). -/
abbrev BandMapping := List (String × Int)

/-- Python `k in m` for a dict. -/
def hasKey (m : BandMapping) (k : String) : Bool :=
  m.any (fun p => p.1 == k)

/-- Python `m[k] = v` for a dict: update in place if the key is present,
append otherwise. -/
def dictInsert (m : BandMapping) (k : String) (v : Int) : BandMapping :=
  if hasKey m k then m.map (fun p => if p.1 == k then (k, v) else p)
  else m ++ [(k, v)]

/-- Python dict lookup `m[k]` as an option. -/
def dictGet? (m : BandMapping) (k : String) : Option Int :=
  (m.find? (fun p => p.1 == k)).map (fun p => p.2)

/- ### `guess_band_types` -/

/-- The inner pattern loop of `guess_band_types`: does any of the role's
patterns match the lowercased name? -/
def anyPatternMatches (tps : List (List Tok)) (name : String) : Bool :=
  tps.any (fun p => reSearch p (lowerName name))

/-- The scan over band names for one role: the first position not already
assigned whose name matches one of the role's patterns. -/
def findMatchPos (tps : List (List Tok)) (asg : List Nat) :
    List String → Nat → Option Nat
  | [], _ => none
  | name :: rest, i =>
      if asg.contains i then findMatchPos tps asg rest (i + 1)
      else if anyPatternMatches tps name then some i
      else findMatchPos tps asg rest (i + 1)

/-- The outer loop of `guess_band_types` over the `patterns` dict, threading
`band_mapping` and `assigned_indices`. -/
def assignRoles :
    List (String × List (List Tok)) → List String → BandMapping → List Nat →
      BandMapping × List Nat
  | [], _, m, asg => (m, asg)
  | (role, tps) :: rest, names, m, asg =>
      if hasKey m role then assignRoles rest names m asg
      else
        match findMatchPos tps asg names 0 with
        | some i => assignRoles rest names (dictInsert m role (Int.ofNat i)) (asg ++ [i])
        | none => assignRoles rest names m asg

/-- One conditional positional-fallback assignment: only for a role not
already mapped and a position not already consumed by pattern matching.
Note the source does not add the position to `assigned_indices`, and does
not compare it with the number of bands. -/
def fbInsert (m : BandMapping) (asg : List Nat) (role : String) (pos : Nat) :
    BandMapping :=
  if !hasKey m role && !asg.contains pos then dictInsert m role (Int.ofNat pos)
  else m

/-- The positional fallback of `guess_band_types`: ≥4 bands ⇒ Blue→1,
Green→2, Red→3, NIR→4; exactly 3 bands ⇒ Red→0, Green→1, Blue→2. -/
def fallback (m : BandMapping) (asg : List Nat) (numBands : Nat) :
    BandMapping :=
  if 4 ≤ numBands then
    fbInsert (fbInsert (fbInsert (fbInsert m asg roleBlue 1) asg roleGreen 2)
      asg roleRed 3) asg roleNIR 4
  else if numBands = 3 then
    fbInsert (fbInsert (fbInsert m asg roleRed 0) asg roleGreen 1) asg roleBlue 2
  else m

/-- The final renaming step: a bare "SWIR" key, when "SWIR1" is absent, is
popped and re-added as "SWIR1". -/
def swirFix (m : BandMapping) : BandMapping :=
  if hasKey m roleSWIR && !hasKey m roleSWIR1 then
    match dictGet? m roleSWIR with
    | some v => dictInsert (m.filter (fun p => p.1 != roleSWIR)) roleSWIR1 v
    | none => m
  else m

/-- The function `guess_band_types` of the source: empty input yields the
empty mapping; otherwise pattern scan, positional fallback, SWIR renaming. -/
def guess_band_types (band_names : List String) : BandMapping :=
  if band_names.isEmpty then []
  else
    let p := assignRoles patterns band_names [] []
    swirFix (fallback p.1 p.2 band_names.length)


/- ### The index registry `COMMON_INDICES` -/

/-- One entry of `COMMON_INDICES`: display name, formula text, required
band roles, optional numeric parameters (`params` key, absent ⇒ empty),
description, colormap hint, display range. -/
structure IndexInfo where
  name : String
  formula : String
  bands : List String
  params : List (String × ℚ)
  description : String
  colormap : String
  range : ℚ × ℚ
deriving DecidableEq

def infoNDVI : IndexInfo :=
  ⟨"Normalized Difference Vegetation Index", "(NIR - Red) / (NIR + Red)",
   [roleNIR, roleRed], [],
   "Measures vegetation health and density. Values range from -1 to 1, with higher values indicating denser vegetation.",
   "RdYlGn", (-0.2, 1.0)⟩

def infoNDWI : IndexInfo :=
  ⟨"Normalized Difference Water Index (McFeeters)", "(Green - NIR) / (Green + NIR)",
   [roleGreen, roleNIR], [],
   "Delineates open water features. Positive values typically represent water bodies.",
   "Blues", (-0.5, 1.0)⟩

def infoMNDWI : IndexInfo :=
  ⟨"Modified NDWI (Xu)", "(Green - SWIR1) / (Green + SWIR1)",
   [roleGreen, roleSWIR1], [],
   "Enhanced water detection, suppresses noise from built-up/soil areas.",
   "Blues", (-0.5, 1.0)⟩

def infoNDBI : IndexInfo :=
  ⟨"Normalized Difference Built-up Index", "(SWIR1 - NIR) / (SWIR1 + NIR)",
   [roleSWIR1, roleNIR], [],
   "Highlights urban areas and built-up land. Higher values indicate built-up areas.",
   "YlOrBr", (-0.5, 0.5)⟩

def infoSAVI : IndexInfo :=
  ⟨"Soil Adjusted Vegetation Index", "(NIR - Red) * (1 + L) / (NIR + Red + L)",
   [roleNIR, roleRed], [("L", 0.5)],
   "Minimizes soil brightness influences (L=0.5 typical). Less sensitive than NDVI to soil background.",
   "YlGn", (-0.2, 1.0)⟩

def infoEVI : IndexInfo :=
  ⟨"Enhanced Vegetation Index", "G * (NIR - Red) / (NIR + C1 * Red - C2 * Blue + L)",
   [roleNIR, roleRed, roleBlue], [("G", 2.5), ("C1", 6.0), ("C2", 7.5), ("L", 1.0)],
   "Improved sensitivity in high biomass areas, reduced atmospheric influence compared to NDVI.",
   "RdYlGn", (-0.2, 1.0)⟩

def infoNDSI : IndexInfo :=
  ⟨"Normalized Difference Snow Index", "(Green - SWIR1) / (Green + SWIR1)",
   [roleGreen, roleSWIR1], [],
   "Used to detect snow and ice. Positive values typically represent snow cover. Separates snow from clouds.",
   "Blues", (-0.5, 1.0)⟩

def infoNDMI : IndexInfo :=
  ⟨"Normalized Difference Moisture Index (NDWI-Gao)", "(NIR - SWIR1) / (NIR + SWIR1)",
   [roleNIR, roleSWIR1], [],
   "Sensitive to vegetation water content and soil moisture. Higher values indicate higher moisture.",
   "YlGnBu", (-0.5, 1.0)⟩

def infoBSI : IndexInfo :=
  ⟨"Bare Soil Index", "((SWIR1 + Red) - (NIR + Blue)) / ((SWIR1 + Red) + (NIR + Blue))",
   [roleSWIR1, roleRed, roleNIR, roleBlue], [],
   "Detects bare soil areas. Higher values indicate more exposed soil. Useful for soil mapping.",
   "YlOrBr", (-0.5, 0.5)⟩

def infoNBR : IndexInfo :=
  ⟨"Normalized Burn Ratio", "(NIR - SWIR2) / (NIR + SWIR2)",
   [roleNIR, roleSWIR2], [],
   "Used for burn severity assessment. Compare pre/post fire. High values = healthy veg, low = burned.",
   "RdYlGn", (-1.0, 1.0)⟩

/-- The module-level registry dict, in insertion order. -/
def COMMON_INDICES : List (String × IndexInfo) :=
  [ ("NDVI", infoNDVI), ("NDWI", infoNDWI), ("MNDWI", infoMNDWI),
    ("NDBI", infoNDBI), ("SAVI", infoSAVI), ("EVI", infoEVI),
    ("NDSI", infoNDSI), ("NDMI", infoNDMI), ("BSI", infoBSI),
    ("NBR", infoNBR) ]

/-- Registry lookup `COMMON_INDICES[index_name]`. -/
def lookupIndex (n : String) : Option IndexInfo :=
  (COMMON_INDICES.find? (fun p => p.1 == n)).map (fun p => p.2)

/- ### `get_available_indices` -/

/-- The loop of `get_available_indices` over the registry: keep an index
name iff all its required band types are keys of the mapping. -/
def availLoop (m : BandMapping) : List (String × IndexInfo) → List String
  | [] => []
  | (nm, info) :: rest =>
      if info.bands.all (fun b => hasKey m b) then nm :: availLoop m rest
      else availLoop m rest

/-- The function `get_available_indices` of the source: an empty (or
missing) mapping short-circuits to the empty list. -/
def get_available_indices (m : BandMapping) : List String :=
  if m.isEmpty then [] else availLoop m COMMON_INDICES

/- ### `calculate_index` -/

/-- The distinct failure kinds of `calculate_index` (each a `ValueError`
with its own message shape in the source).  `bandRoleKeyError` is the
defensive `except KeyError` path and `nbrMissingSwir2` the redundant SWIR2
presence check inside the NBR branch; both are unreachable, as proved
below for the latter. -/
inductive CalcError
  | unknownIndex : String → CalcError
  | missingBandRole : String → List String → CalcError
  | bandIndexOutOfRange : String → Int → CalcError
  | bandRoleKeyError : String → CalcError
  | nbrMissingSwir2 : CalcError
  | notImplemented : String → CalcError
deriving DecidableEq

/-- The loop building the per-role array table `B`: for each required role
in order, look its position up in the mapping and check
`0 <= band_idx < len(bands)`, failing at the first violation. -/
def buildB (bands : List Arr) (m : BandMapping) :
    List String → Except CalcError (List (String × Arr))
  | [] => Except.ok []
  | role :: rest =>
      match dictGet? m role with
      | none => Except.error (CalcError.bandRoleKeyError role)
      | some idx =>
          if 0 ≤ idx ∧ idx < (bands.length : Int) then
            match buildB bands m rest with
            | Except.ok B => Except.ok ((role, bands.getD idx.toNat []) :: B)
            | Except.error e => Except.error e
          else Except.error (CalcError.bandIndexOutOfRange role idx)

/-- Lookup `B[role]` in the per-role table (total: the table always holds
every required role when built successfully). -/
def bGet (B : List (String × Arr)) (role : String) : Arr :=
  ((B.find? (fun p => p.1 == role)).map (fun p => p.2)).getD []

/-- Python `role in B` on the per-role table. -/
def hasKeyArr (B : List (String × Arr)) (k : String) : Bool :=
  B.any (fun p => p.1 == k)

/-- Python `params.get(k, d)`. -/
def paramGet (ps : List (String × ℚ)) (k : String) (d : ℚ) : ℚ :=
  ((ps.find? (fun p => p.1 == k)).map (fun p => p.2)).getD d

/-- The per-index numerator/denominator dispatch of `calculate_index`
(the `elif` chain), formula by formula from the source. -/
def numDen (index_name : String) (params : List (String × ℚ))
    (B : List (String × Arr)) : Except CalcError (Arr × Arr) :=
  if index_name == "NDVI" then
    Except.ok (amap2 fsub (bGet B roleNIR) (bGet B roleRed),
               amap2 fadd (bGet B roleNIR) (bGet B roleRed))
  else if index_name == "NDWI" then
    Except.ok (amap2 fsub (bGet B roleGreen) (bGet B roleNIR),
               amap2 fadd (bGet B roleGreen) (bGet B roleNIR))
  else if index_name == "MNDWI" then
    Except.ok (amap2 fsub (bGet B roleGreen) (bGet B roleSWIR1),
               amap2 fadd (bGet B roleGreen) (bGet B roleSWIR1))
  else if index_name == "NDBI" then
    Except.ok (amap2 fsub (bGet B roleSWIR1) (bGet B roleNIR),
               amap2 fadd (bGet B roleSWIR1) (bGet B roleNIR))
  else if index_name == "SAVI" then
    let L := paramGet params ("L") (0.5)
    Except.ok (amap (fun x => fmul x (F.fin (1 + L)))
                 (amap2 fsub (bGet B roleNIR) (bGet B roleRed)),
               amap (fun x => fadd x (F.fin L))
                 (amap2 fadd (bGet B roleNIR) (bGet B roleRed)))
  else if index_name == "EVI" then
    let G := paramGet params ("G") (2.5)
    let c1 := paramGet params ("C1") (6.0)
    let c2 := paramGet params ("C2") (7.5)
    let L := paramGet params ("L") (1.0)
    Except.ok (amap (fun x => fmul (F.fin G) x)
                 (amap2 fsub (bGet B roleNIR) (bGet B roleRed)),
               amap (fun x => fadd x (F.fin L))
                 (amap2 fsub
                   (amap2 fadd (bGet B roleNIR)
                     (amap (fun x => fmul (F.fin c1) x) (bGet B roleRed)))
                   (amap (fun x => fmul (F.fin c2) x) (bGet B roleBlue))))
  else if index_name == "NDSI" then
    Except.ok (amap2 fsub (bGet B roleGreen) (bGet B roleSWIR1),
               amap2 fadd (bGet B roleGreen) (bGet B roleSWIR1))
  else if index_name == "NDMI" then
    Except.ok (amap2 fsub (bGet B roleNIR) (bGet B roleSWIR1),
               amap2 fadd (bGet B roleNIR) (bGet B roleSWIR1))
  else if index_name == "BSI" then
    Except.ok (amap2 fsub (amap2 fadd (bGet B roleSWIR1) (bGet B roleRed))
                 (amap2 fadd (bGet B roleNIR) (bGet B roleBlue)),
               amap2 fadd (amap2 fadd (bGet B roleSWIR1) (bGet B roleRed))
                 (amap2 fadd (bGet B roleNIR) (bGet B roleBlue)))
  else if index_name == "NBR" then
    if !hasKeyArr B roleSWIR2 then Except.error CalcError.nbrMissingSwir2
    else
      Except.ok (amap2 fsub (bGet B roleNIR) (bGet B roleSWIR2),
                 amap2 fadd (bGet B roleNIR) (bGet B roleSWIR2))
  else Except.error (CalcError.notImplemented index_name)

/-- The function `calculate_index` of the source: registry lookup, missing
role check, per-role bounds check, formula, masked division; on success the
index array together with the description, colormap and display range. -/
def calculate_index (bands : List Arr) (band_mapping : BandMapping)
    (index_name : String) :
    Except CalcError (Arr × String × String × (ℚ × ℚ)) :=
  match lookupIndex index_name with
  | none => Except.error (CalcError.unknownIndex index_name)
  | some info =>
      let missing := info.bands.filter (fun b => !hasKey band_mapping b)
      if missing.isEmpty then
        match buildB bands band_mapping info.bands with
        | Except.error e => Except.error e
        | Except.ok B =>
            match numDen index_name info.params B with
            | Except.error e => Except.error e
            | Except.ok nd =>
                Except.ok (npDivide nd.1 nd.2, info.description,
                  info.colormap, info.range)
      else Except.error (CalcError.missingBandRole index_name missing)

/-- The first required role, in order, whose mapped position fails
`0 <= position < numBands` (positions all present in the mapping). -/
def firstBad (numBands : Nat) (m : BandMapping) :
    List String → Option (String × Int)
  | [] => none
  | role :: rest =>
      match dictGet? m role with
      | none => none
      | some idx =>
          if 0 ≤ idx ∧ idx < (numBands : Int) then firstBad numBands m rest
          else some (role, idx)

/-- The numerator and denominator arrays that a successful evaluation
divides (the same pipeline as `calculate_index`, stopped before the
division). -/
def numDenOf (bands : List Arr) (m : BandMapping) (n : String) :
    Option (Arr × Arr) :=
  match lookupIndex n with
  | none => none
  | some info =>
      match buildB bands m info.bands with
      | Except.error _ => none
      | Except.ok B =>
          match numDen n info.params B with
          | Except.error _ => none
          | Except.ok nd => some nd


/- ### Predicates used by the theorems -/

/-- The keys of a mapping, in order. -/
def keysOf (m : BandMapping) : List String :=
  m.map (fun p => p.1)

/-- No two roles of the mapping hold the same band position. -/
def InjVals (m : BandMapping) : Prop :=
  ∀ p q, p ∈ m → q ∈ m → p.2 = q.2 → p.1 = q.1

/-- Every position value of the mapping is a natural number consumed in
`asg` or listed in `extra`. -/
def ValuesIn (m : BandMapping) (asg : List Nat) (extra : List Nat) : Prop :=
  ∀ p, p ∈ m → ∃ i : Nat, p.2 = Int.ofNat i ∧ (i ∈ asg ∨ i ∈ extra)

/-- The six semantic roles the inferencer can produce. -/
def sixRoles : List String :=
  [roleNIR, roleSWIR2, roleSWIR1, roleRed, roleGreen, roleBlue]

/- ### Generic list lemmas -/

theorem zipWith_getElem? {α β γ : Type} (f : α → β → γ) (a : List α)
    (b : List β) (i : Nat) :
    (List.zipWith f a b)[i]? = (a[i]?).bind (fun x => (b[i]?).map (f x)) := by
  induction a generalizing b i with
  | nil => simp
  | cons x xs ih =>
      cases b with
      | nil => simp
      | cons y ys =>
          cases i with
          | zero => simp
          | succ n => simpa using ih ys n

theorem aGet?_amap2 (f : F → F → F) (a b : Arr) (i j : Nat) :
    aGet? (amap2 f a b) i j =
      (aGet? a i j).bind (fun x => (aGet? b i j).map (f x)) := by
  unfold aGet? amap2
  rw [zipWith_getElem?]
  cases ha : a[i]? with
  | none => simp
  | some ra =>
      cases hb : b[i]? with
      | none => simp
      | some rb => simp [zipWith_getElem?]

theorem aGet?_amap (f : F → F) (a : Arr) (i j : Nat) :
    aGet? (amap f a) i j = (aGet? a i j).map f := by
  unfold aGet? amap
  rw [List.getElem?_map]
  cases a[i]? with
  | none => simp
  | some ra => simp

/- ### Facts about the float model -/

theorem fadd_nan_left (y : F) : fadd F.nan y = F.nan := by cases y <;> rfl

theorem fadd_nan_right (x : F) : fadd x F.nan = F.nan := by cases x <;> rfl

theorem fsub_nan_left (y : F) : fsub F.nan y = F.nan := by cases y <;> rfl

theorem fsub_nan_right (x : F) : fsub x F.nan = F.nan := by cases x <;> rfl

theorem fmul_nan_right (x : F) : fmul x F.nan = F.nan := by cases x <;> rfl

theorem fmul_nan_left (y : F) : fmul F.nan y = F.nan := by cases y <;> rfl

theorem fdiv_nan_left (y : F) : fdiv F.nan y = F.nan := by cases y <;> rfl

theorem fdiv_nan_right (x : F) : fdiv x F.nan = F.nan := by cases x <;> rfl

/- ### Facts about the dictionary model -/

theorem hasKey_iff_mem (m : BandMapping) (k : String) :
    hasKey m k = true ↔ ∃ v, (k, v) ∈ m := by
  constructor
  · intro h
    rcases List.any_eq_true.mp h with ⟨p, hp, he⟩
    exact ⟨p.2, by rcases p with ⟨a, b⟩; cases beq_iff_eq.mp he; exact hp⟩
  · rintro ⟨v, hv⟩
    exact List.any_eq_true.mpr ⟨(k, v), hv, beq_iff_eq.mpr rfl⟩

theorem hasKey_false_not_mem (m : BandMapping) (k : String)
    (h : hasKey m k = false) : ∀ v, (k, v) ∉ m := by
  intro v hv
  have := (hasKey_iff_mem m k).mpr ⟨v, hv⟩
  rw [h] at this
  exact Bool.false_ne_true this

theorem dictInsert_of_not_hasKey (m : BandMapping) (k : String) (v : Int)
    (h : hasKey m k = false) : dictInsert m k v = m ++ [(k, v)] := by
  simp [dictInsert, h]

theorem keysOf_append (m : BandMapping) (k : String) (v : Int) :
    keysOf (m ++ [(k, v)]) = keysOf m ++ [k] := by
  simp [keysOf]

theorem keysOf_cons (p : String × Int) (rest : BandMapping) :
    keysOf (p :: rest) = p.1 :: keysOf rest := rfl

theorem dictGet?_of_mem (m : BandMapping) (k : String) (v : Int)
    (hnd : (keysOf m).Nodup) (hmem : (k, v) ∈ m) : dictGet? m k = some v := by
  induction m with
  | nil => cases hmem
  | cons p rest ih =>
      rw [keysOf_cons] at hnd
      have hnd1 := (List.nodup_cons.mp hnd).1
      have hnd2 := (List.nodup_cons.mp hnd).2
      rcases List.mem_cons.mp hmem with h | h
      · cases h
        simp [dictGet?, List.find?]
      · have hk : p.1 ≠ k := by
          intro he
          apply hnd1
          rw [he]
          exact List.mem_map_of_mem (fun q => q.1) h
        have hrest := ih hnd2 h
        simp [dictGet?, List.find?, beq_eq_false_iff_ne.mpr hk] at hrest ⊢
        exact hrest

theorem mem_of_dictGet? (m : BandMapping) (k : String) (v : Int)
    (h : dictGet? m k = some v) : (k, v) ∈ m := by
  unfold dictGet? at h
  cases hf : m.find? (fun p => p.1 == k) with
  | none => rw [hf] at h; cases h
  | some p =>
      rw [hf] at h
      have hp := List.find?_some hf
      have hm := List.mem_of_find?_eq_some hf
      rcases p with ⟨a, b⟩
      cases beq_iff_eq.mp hp
      cases h
      exact hm

instance {ε α : Type} [DecidableEq ε] [DecidableEq α] : DecidableEq (Except ε α) := fun x y =>
  match x, y with
  | Except.ok a, Except.ok b =>
      if h : a = b then isTrue (by rw [h])
      else isFalse (by intro hc; cases hc; exact h rfl)
  | Except.error a, Except.error b =>
      if h : a = b then isTrue (by rw [h])
      else isFalse (by intro hc; cases hc; exact h rfl)
  | Except.ok _, Except.error _ => isFalse (by intro hc; cases hc)
  | Except.error _, Except.ok _ => isFalse (by intro hc; cases hc)

theorem containsNat_iff (l : List Nat) (i : Nat) : l.contains i = true ↔ i ∈ l := by
  induction l with
  | nil => simp
  | cons x xs ih => simp [List.contains] at ih ⊢

theorem mem_keysOf_iff (m : BandMapping) (k : String) :
    k ∈ keysOf m ↔ ∃ v, (k, v) ∈ m := by
  constructor
  · intro h
    rcases List.mem_map.mp h with ⟨p, hp, he⟩
    exact ⟨p.2, by rcases p with ⟨a, b⟩; cases he; exact hp⟩
  · rintro ⟨v, hv⟩
    exact List.mem_map.mpr ⟨(k, v), hv, rfl⟩

theorem hasKey_eq_false_iff (m : BandMapping) (k : String) :
    hasKey m k = false ↔ k ∉ keysOf m := by
  constructor
  · intro h hk
    rcases (mem_keysOf_iff m k).mp hk with ⟨v, hv⟩
    have := (hasKey_iff_mem m k).mpr ⟨v, hv⟩
    rw [h] at this
    exact Bool.false_ne_true this
  · intro h
    cases hk : hasKey m k with
    | false => rfl
    | true =>
        rcases (hasKey_iff_mem m k).mp hk with ⟨v, hv⟩
        exact absurd ((mem_keysOf_iff m k).mpr ⟨v, hv⟩) h

theorem hasKey_append (m : BandMapping) (k r : String) (v : Int) :
    hasKey (m ++ [(r, v)]) k = (hasKey m k || (r == k)) := by
  simp [hasKey, List.any_append]

theorem findMatchPos_not_assigned (tps : List (List Tok)) (asg : List Nat)
    (names : List String) :
    ∀ (k i : Nat), findMatchPos tps asg names k = some i → i ∉ asg := by
  induction names with
  | nil => intro k i h; cases h
  | cons nm rest ih =>
      intro k i h
      by_cases hc : k ∈ asg
      · rw [show findMatchPos tps asg (nm :: rest) k
            = findMatchPos tps asg rest (k + 1) from by
          simp [findMatchPos, hc]] at h
        exact ih (k + 1) i h
      · cases hm : anyPatternMatches tps nm with
        | true =>
            have : some k = some i := by
              rw [show findMatchPos tps asg (nm :: rest) k = some k from by
                simp [findMatchPos, hc, hm]] at h
              exact h
            cases this
            exact hc
        | false =>
            rw [show findMatchPos tps asg (nm :: rest) k
                = findMatchPos tps asg rest (k + 1) from by
              simp [findMatchPos, hc, hm]] at h
            exact ih (k + 1) i h

theorem findMatchPos_found (tps : List (List Tok)) (names : List String)
    (i : Nat) (nm : String) :
    ∀ (k : Nat), names[i]? = some nm → anyPatternMatches tps nm = true →
      (∀ j nm0, j < i → names[j]? = some nm0 →
        anyPatternMatches tps nm0 = false) →
      findMatchPos tps [] names k = some (k + i) := by
  induction names generalizing i with
  | nil => intro k h1; simp at h1
  | cons x rest ih =>
      intro k h1 h2 h3
      cases i with
      | zero =>
          have hx : x = nm := by simpa using h1
          simp [findMatchPos, hx, h2]
      | succ n =>
          have hx : anyPatternMatches tps x = false :=
            h3 0 x (Nat.succ_pos n) (by simp)
          have h1' : rest[n]? = some nm := by simpa using h1
          have h3' : ∀ j nm0, j < n → rest[j]? = some nm0 →
              anyPatternMatches tps nm0 = false := by
            intro j nm0 hj hg
            exact h3 (j + 1) nm0 (Nat.succ_lt_succ hj) (by simpa using hg)
          have := ih n (k + 1) h1' h2 h3'
          rw [show findMatchPos tps [] (x :: rest) k
              = findMatchPos tps [] rest (k + 1) from by
            simp [findMatchPos, hx]]
          rw [this]
          congr 1
          omega

theorem assignRoles_inv (pl : List (String × List (List Tok)))
    (names : List String) :
    ∀ (m : BandMapping) (asg : List Nat),
      ValuesIn m asg [] → InjVals m → (keysOf m).Nodup →
      ValuesIn (assignRoles pl names m asg).1 (assignRoles pl names m asg).2 [] ∧
      InjVals (assignRoles pl names m asg).1 ∧
      (keysOf (assignRoles pl names m asg).1).Nodup ∧
      (∀ p, p ∈ m → p ∈ (assignRoles pl names m asg).1) ∧
      (∀ k, hasKey (assignRoles pl names m asg).1 k = true →
        hasKey m k = true ∨ k ∈ pl.map (fun x => x.1)) := by
  induction pl with
  | nil =>
      intro m asg h1 h2 h3
      exact ⟨h1, h2, h3, fun p hp => hp, fun k hk => Or.inl hk⟩
  | cons hd rest ih =>
      intro m asg h1 h2 h3
      rcases hd with ⟨role, tps⟩
      by_cases hk : hasKey m role = true
      · rw [show assignRoles ((role, tps) :: rest) names m asg
            = assignRoles rest names m asg from by simp [assignRoles, hk]]
        have hr := ih m asg h1 h2 h3
        refine ⟨hr.1, hr.2.1, hr.2.2.1, hr.2.2.2.1, ?_⟩
        intro k hx
        rcases hr.2.2.2.2 k hx with h | h
        · exact Or.inl h
        · exact Or.inr (List.mem_cons_of_mem _ h)
      · have hk' : hasKey m role = false := by
          cases hv : hasKey m role with
          | false => rfl
          | true => exact absurd hv hk
        cases hf : findMatchPos tps asg names 0 with
        | none =>
            rw [show assignRoles ((role, tps) :: rest) names m asg
                = assignRoles rest names m asg from by
              simp [assignRoles, hk', hf]]
            have hr := ih m asg h1 h2 h3
            refine ⟨hr.1, hr.2.1, hr.2.2.1, hr.2.2.2.1, ?_⟩
            intro k hx
            rcases hr.2.2.2.2 k hx with h | h
            · exact Or.inl h
            · exact Or.inr (List.mem_cons_of_mem _ h)
        | some i =>
            have hci : i ∉ asg :=
              findMatchPos_not_assigned tps asg names 0 i hf
            have hstep : assignRoles ((role, tps) :: rest) names m asg
                = assignRoles rest names (m ++ [(role, Int.ofNat i)])
                    (asg ++ [i]) := by
              simp only [assignRoles, hk', hf]
              rw [dictInsert_of_not_hasKey m role (Int.ofNat i) hk']
              simp
            rw [hstep]
            have hv' : ValuesIn (m ++ [(role, Int.ofNat i)]) (asg ++ [i]) [] := by
              intro p hp
              rcases List.mem_append.mp hp with hp | hp
              · rcases h1 p hp with ⟨j, hj, hjm | hjm⟩
                · exact ⟨j, hj, Or.inl (List.mem_append_left _ hjm)⟩
                · cases hjm
              · have hp' : p = (role, Int.ofNat i) := by simpa using hp
                subst hp'
                exact ⟨i, rfl,
                  Or.inl (List.mem_append_right _ (List.mem_singleton.mpr rfl))⟩
            have hinj' : InjVals (m ++ [(role, Int.ofNat i)]) := by
              intro p q hp hq he
              rcases List.mem_append.mp hp with hp | hp <;>
                rcases List.mem_append.mp hq with hq | hq
              · exact h2 p q hp hq he
              · have hq' : q = (role, Int.ofNat i) := by simpa using hq
                rcases h1 p hp with ⟨j, hj, hjm | hjm⟩
                · rw [hj, hq'] at he
                  have : j = i := by
                    simpa using he
                  subst this
                  exact absurd hjm hci
                · cases hjm
              · have hp' : p = (role, Int.ofNat i) := by simpa using hp
                rcases h1 q hq with ⟨j, hj, hjm | hjm⟩
                · rw [hj, hp'] at he
                  have : j = i := by
                    have := he.symm
                    simpa using this
                  subst this
                  exact absurd hjm hci
                · cases hjm
              · have hp' : p = (role, Int.ofNat i) := by simpa using hp
                have hq' : q = (role, Int.ofNat i) := by simpa using hq
                rw [hp', hq']
            have hnd' : (keysOf (m ++ [(role, Int.ofNat i)])).Nodup := by
              rw [keysOf_append]
              rw [List.nodup_append]
              refine ⟨h3, List.nodup_singleton role, ?_⟩
              intro a ha hb
              have hb' : a = role := by simpa using hb
              rw [hb'] at ha
              exact absurd ha ((hasKey_eq_false_iff m role).mp hk')
            have hr := ih (m ++ [(role, Int.ofNat i)]) (asg ++ [i]) hv' hinj' hnd'
            refine ⟨hr.1, hr.2.1, hr.2.2.1, ?_, ?_⟩
            · intro p hp
              exact hr.2.2.2.1 p (List.mem_append_left _ hp)
            · intro k hx
              rcases hr.2.2.2.2 k hx with h | h
              · rw [hasKey_append] at h
                rcases Bool.or_eq_true_iff.mp h with h | h
                · exact Or.inl h
                · have : role = k := by simpa using h
                  subst this
                  exact Or.inr (List.mem_cons_self _ _)
              · exact Or.inr (List.mem_cons_of_mem _ h)

theorem fbInsert_inv (m : BandMapping) (asg : List Nat) (S : List Nat)
    (role : String) (pos : Nat)
    (hv : ValuesIn m asg S) (hinj : InjVals m) (hnd : (keysOf m).Nodup)
    (hpos : pos ∉ S) :
    ValuesIn (fbInsert m asg role pos) asg (pos :: S) ∧
    InjVals (fbInsert m asg role pos) ∧
    (keysOf (fbInsert m asg role pos)).Nodup ∧
    (∀ p, p ∈ m → p ∈ fbInsert m asg role pos) ∧
    (∀ k, hasKey (fbInsert m asg role pos) k = true →
      hasKey m k = true ∨ k = role) := by
  have wk : ValuesIn m asg (pos :: S) := by
    intro p hp
    rcases hv p hp with ⟨j, hj, hm | hm⟩
    · exact ⟨j, hj, Or.inl hm⟩
    · exact ⟨j, hj, Or.inr (List.mem_cons_of_mem _ hm)⟩
  by_cases h1 : hasKey m role = true
  · rw [show fbInsert m asg role pos = m from by simp [fbInsert, h1]]
    exact ⟨wk, hinj, hnd, fun p hp => hp, fun k hk => Or.inl hk⟩
  · have h1' : hasKey m role = false := by
      cases hx : hasKey m role with
      | false => rfl
      | true => exact absurd hx h1
    by_cases h2 : asg.contains pos = true
    · have hmem : pos ∈ asg := (containsNat_iff asg pos).mp h2
      rw [show fbInsert m asg role pos = m from by simp [fbInsert, hmem]]
      exact ⟨wk, hinj, hnd, fun p hp => hp, fun k hk => Or.inl hk⟩
    · have h2' : asg.contains pos = false := by
        cases hx : asg.contains pos with
        | false => rfl
        | true => exact absurd hx h2
      have hpa : pos ∉ asg := by
        intro hx
        have hc := (containsNat_iff asg pos).mpr hx
        rw [hc] at h2'
        cases h2'
      have hstep : fbInsert m asg role pos = m ++ [(role, Int.ofNat pos)] := by
        simp only [fbInsert, h1', h2']
        rw [dictInsert_of_not_hasKey m role (Int.ofNat pos) h1']
        simp
      rw [hstep]
      refine ⟨?_, ?_, ?_, ?_, ?_⟩
      · intro p hp
        rcases List.mem_append.mp hp with hp | hp
        · rcases hv p hp with ⟨j, hj, hm | hm⟩
          · exact ⟨j, hj, Or.inl hm⟩
          · exact ⟨j, hj, Or.inr (List.mem_cons_of_mem _ hm)⟩
        · have hp' : p = (role, Int.ofNat pos) := by simpa using hp
          subst hp'
          exact ⟨pos, rfl, Or.inr (List.mem_cons_self _ _)⟩
      · intro p q hp hq he
        rcases List.mem_append.mp hp with hp | hp <;>
          rcases List.mem_append.mp hq with hq | hq
        · exact hinj p q hp hq he
        · have hq' : q = (role, Int.ofNat pos) := by simpa using hq
          rcases hv p hp with ⟨j, hj, hm⟩
          rw [hj, hq'] at he
          have hji : j = pos := by simpa using he
          subst hji
          rcases hm with hm | hm
          · exact absurd hm hpa
          · exact absurd hm hpos
        · have hp' : p = (role, Int.ofNat pos) := by simpa using hp
          rcases hv q hq with ⟨j, hj, hm⟩
          rw [hj, hp'] at he
          have hji : j = pos := by
            have := he.symm
            simpa using this
          subst hji
          rcases hm with hm | hm
          · exact absurd hm hpa
          · exact absurd hm hpos
        · have hp' : p = (role, Int.ofNat pos) := by simpa using hp
          have hq' : q = (role, Int.ofNat pos) := by simpa using hq
          rw [hp', hq']
      · rw [keysOf_append, List.nodup_append]
        refine ⟨hnd, List.nodup_singleton role, ?_⟩
        intro a ha hb
        have hb' : a = role := by simpa using hb
        rw [hb'] at ha
        exact absurd ha ((hasKey_eq_false_iff m role).mp h1')
      · intro p hp
        exact List.mem_append_left _ hp
      · intro k hk
        rw [hasKey_append] at hk
        rcases Bool.or_eq_true_iff.mp hk with h | h
        · exact Or.inl h
        · have h' : role = k := by simpa using h
          exact Or.inr h'.symm

theorem fallback_inv (m : BandMapping) (asg : List Nat) (numBands : Nat)
    (hv : ValuesIn m asg []) (hinj : InjVals m) (hnd : (keysOf m).Nodup) :
    InjVals (fallback m asg numBands) ∧
    (keysOf (fallback m asg numBands)).Nodup ∧
    (∀ p, p ∈ m → p ∈ fallback m asg numBands) ∧
    (∀ k, hasKey (fallback m asg numBands) k = true →
      hasKey m k = true ∨ k ∈ sixRoles) := by
  unfold fallback
  by_cases hb : 4 ≤ numBands
  · rw [if_pos hb]
    have s1 := fbInsert_inv m asg [] roleBlue 1 hv hinj hnd (by simp)
    have s2 := fbInsert_inv _ asg [1] roleGreen 2 s1.1 s1.2.1 s1.2.2.1 (by decide)
    have s3 := fbInsert_inv _ asg [2, 1] roleRed 3 s2.1 s2.2.1 s2.2.2.1 (by decide)
    have s4 := fbInsert_inv _ asg [3, 2, 1] roleNIR 4 s3.1 s3.2.1 s3.2.2.1 (by decide)
    refine ⟨s4.2.1, s4.2.2.1, ?_, ?_⟩
    · intro p hp
      exact s4.2.2.2.1 p (s3.2.2.2.1 p (s2.2.2.2.1 p (s1.2.2.2.1 p hp)))
    · intro k hk
      rcases s4.2.2.2.2 k hk with h | h
      · rcases s3.2.2.2.2 k h with h | h
        · rcases s2.2.2.2.2 k h with h | h
          · rcases s1.2.2.2.2 k h with h | h
            · exact Or.inl h
            · exact Or.inr (by rw [h]; decide)
          · exact Or.inr (by rw [h]; decide)
        · exact Or.inr (by rw [h]; decide)
      · exact Or.inr (by rw [h]; decide)
  · rw [if_neg hb]
    by_cases h3 : numBands = 3
    · rw [if_pos h3]
      have s1 := fbInsert_inv m asg [] roleRed 0 hv hinj hnd (by simp)
      have s2 := fbInsert_inv _ asg [0] roleGreen 1 s1.1 s1.2.1 s1.2.2.1 (by decide)
      have s3 := fbInsert_inv _ asg [1, 0] roleBlue 2 s2.1 s2.2.1 s2.2.2.1 (by decide)
      refine ⟨s3.2.1, s3.2.2.1, ?_, ?_⟩
      · intro p hp
        exact s3.2.2.2.1 p (s2.2.2.2.1 p (s1.2.2.2.1 p hp))
      · intro k hk
        rcases s3.2.2.2.2 k hk with h | h
        · rcases s2.2.2.2.2 k h with h | h
          · rcases s1.2.2.2.2 k h with h | h
            · exact Or.inl h
            · exact Or.inr (by rw [h]; decide)
          · exact Or.inr (by rw [h]; decide)
        · exact Or.inr (by rw [h]; decide)
    · rw [if_neg h3]
      exact ⟨hinj, hnd, fun p hp => hp, fun k hk => Or.inl hk⟩

theorem swirFix_of_no_swir (m : BandMapping) (h : hasKey m roleSWIR = false) :
    swirFix m = m := by
  simp [swirFix, h]

theorem guess_main (names : List String) :
    InjVals (guess_band_types names) ∧
    (keysOf (guess_band_types names)).Nodup ∧
    (∀ k, hasKey (guess_band_types names) k = true → k ∈ sixRoles) := by
  by_cases he : names.isEmpty = true
  · rw [show guess_band_types names = [] from by simp [guess_band_types, he]]
    refine ⟨?_, ?_, ?_⟩
    · intro p q hp
      cases hp
    · simp [keysOf]
    · intro k hk
      simp [hasKey] at hk
  · have he' : names.isEmpty = false := by
      cases hx : names.isEmpty with
      | false => rfl
      | true => exact absurd hx he
    have hgu : guess_band_types names
        = swirFix (fallback (assignRoles patterns names [] []).1
            (assignRoles patterns names [] []).2 names.length) := by
      simp [guess_band_types, he']
    have h0 := assignRoles_inv patterns names [] []
      (by intro p hp; cases hp) (by intro p q hp hq he2; cases hp)
      (by simp [keysOf])
    obtain ⟨hv1, hinj1, hnd1, -, hkeys1⟩ := h0
    have h1 := fallback_inv (assignRoles patterns names [] []).1
      (assignRoles patterns names [] []).2 names.length hv1 hinj1 hnd1
    obtain ⟨hinj2, hnd2, hmem2, hkeys2⟩ := h1
    have hkeys2' : ∀ k, hasKey (fallback (assignRoles patterns names [] []).1
        (assignRoles patterns names [] []).2 names.length) k = true →
        k ∈ sixRoles := by
      intro k hk
      rcases hkeys2 k hk with h | h
      · rcases hkeys1 k h with h' | h'
        · simp [hasKey] at h'
        · exact h'
      · exact h
    have hswir : hasKey (fallback (assignRoles patterns names [] []).1
        (assignRoles patterns names [] []).2 names.length) roleSWIR = false := by
      cases hx : hasKey (fallback (assignRoles patterns names [] []).1
          (assignRoles patterns names [] []).2 names.length) roleSWIR with
      | false => rfl
      | true => exact absurd (hkeys2' roleSWIR hx) (by decide)
    rw [hgu, swirFix_of_no_swir _ hswir]
    exact ⟨hinj2, hnd2, hkeys2'⟩

theorem pipeline_entry (pl : List (String × List (List Tok)))
    (names : List String) (m : BandMapping) (asg : List Nat) (p : String × Int)
    (hp : p ∈ m)
    (hv : ValuesIn m asg []) (hinj : InjVals m) (hnd : (keysOf m).Nodup)
    (hkeys : ∀ k, hasKey m k = true → k ∈ sixRoles)
    (hpl : ∀ k, k ∈ pl.map (fun x => x.1) → k ∈ sixRoles) :
    p ∈ swirFix (fallback (assignRoles pl names m asg).1
      (assignRoles pl names m asg).2 names.length) := by
  obtain ⟨hv1, hinj1, hnd1, hmem1, hkeys1⟩ :=
    assignRoles_inv pl names m asg hv hinj hnd
  obtain ⟨hinj2, hnd2, hmem2, hkeys2⟩ :=
    fallback_inv (assignRoles pl names m asg).1
      (assignRoles pl names m asg).2 names.length hv1 hinj1 hnd1
  have hkeysF : ∀ k, hasKey (fallback (assignRoles pl names m asg).1
      (assignRoles pl names m asg).2 names.length) k = true →
      k ∈ sixRoles := by
    intro k hk
    rcases hkeys2 k hk with h | h
    · rcases hkeys1 k h with h' | h'
      · exact hkeys k h'
      · exact hpl k h'
    · exact h
  have hswir : hasKey (fallback (assignRoles pl names m asg).1
      (assignRoles pl names m asg).2 names.length) roleSWIR = false := by
    cases hx : hasKey (fallback (assignRoles pl names m asg).1
        (assignRoles pl names m asg).2 names.length) roleSWIR with
    | false => rfl
    | true => exact absurd (hkeysF roleSWIR hx) (by decide)
  rw [swirFix_of_no_swir _ hswir]
  exact hmem2 p (hmem1 p hp)

theorem guess_nir_entry (names : List String) (i : Nat) (nm : String)
    (h1 : names[i]? = some nm)
    (h2 : anyPatternMatches nirPatterns nm = true)
    (h3 : ∀ j nm0, j < i → names[j]? = some nm0 →
      anyPatternMatches nirPatterns nm0 = false) :
    (roleNIR, Int.ofNat i) ∈ guess_band_types names := by
  have hne : names.isEmpty = false := by
    cases names with
    | nil => simp at h1
    | cons a l => simp
  have hfm : findMatchPos nirPatterns [] names 0 = some i := by
    have := findMatchPos_found nirPatterns names i nm 0 h1 h2 h3
    simpa using this
  have hgu : guess_band_types names
      = swirFix (fallback (assignRoles patterns names [] []).1
          (assignRoles patterns names [] []).2 names.length) := by
    simp [guess_band_types, hne]
  have hstep : assignRoles patterns names [] []
      = assignRoles [(roleSWIR2, swir2Patterns), (roleSWIR1, swir1Patterns),
          (roleRed, redPatterns), (roleGreen, greenPatterns),
          (roleBlue, bluePatterns)] names [(roleNIR, Int.ofNat i)] [i] := by
    rw [show assignRoles patterns names [] []
        = (match findMatchPos nirPatterns [] names 0 with
           | some j => assignRoles [(roleSWIR2, swir2Patterns),
               (roleSWIR1, swir1Patterns), (roleRed, redPatterns),
               (roleGreen, greenPatterns), (roleBlue, bluePatterns)] names
               (dictInsert [] roleNIR (Int.ofNat j)) ([] ++ [j])
           | none => assignRoles [(roleSWIR2, swir2Patterns),
               (roleSWIR1, swir1Patterns), (roleRed, redPatterns),
               (roleGreen, greenPatterns), (roleBlue, bluePatterns)] names
               [] []) from rfl]
    rw [hfm]
    rfl
  rw [hgu, hstep]
  exact pipeline_entry _ names [(roleNIR, Int.ofNat i)] [i]
    (roleNIR, Int.ofNat i) (List.mem_singleton.mpr rfl)
    (by
      intro p hp
      have hp' : p = (roleNIR, Int.ofNat i) := by simpa using hp
      subst hp'
      exact ⟨i, rfl, Or.inl (List.mem_singleton.mpr rfl)⟩)
    (by
      intro p q hp hq he2
      have hp' : p = (roleNIR, Int.ofNat i) := by simpa using hp
      have hq' : q = (roleNIR, Int.ofNat i) := by simpa using hq
      rw [hp', hq'])
    (by simp [keysOf])
    (by
      intro k hk
      have : k = roleNIR := by
        rcases (hasKey_iff_mem _ k).mp hk with ⟨v, hv⟩
        have : (k, v) = (roleNIR, Int.ofNat i) := by simpa using hv
        exact congrArg Prod.fst this
      rw [this]
      decide)
    (by decide)

theorem dictGet?_isSome_of_hasKey (m : BandMapping) (k : String)
    (h : hasKey m k = true) : ∃ v, dictGet? m k = some v := by
  unfold hasKey at h
  unfold dictGet?
  cases hf : m.find? (fun q => q.1 == k) with
  | none =>
      rcases List.any_eq_true.mp h with ⟨p, hp, he⟩
      have := List.find?_eq_none.mp hf p hp
      rw [he] at this
      cases this rfl
  | some q => exact ⟨q.2, rfl⟩

theorem buildB_cons (bands : List Arr) (m : BandMapping) (role : String)
    (rest : List String) :
    buildB bands m (role :: rest) = (match dictGet? m role with
      | none => Except.error (CalcError.bandRoleKeyError role)
      | some idx =>
          if 0 ≤ idx ∧ idx < (bands.length : Int) then
            match buildB bands m rest with
            | Except.ok Bt => Except.ok ((role, bands.getD idx.toNat []) :: Bt)
            | Except.error e => Except.error e
          else Except.error (CalcError.bandIndexOutOfRange role idx)) := rfl

theorem firstBad_cons (nb : Nat) (m : BandMapping) (role : String)
    (rest : List String) :
    firstBad nb m (role :: rest) = (match dictGet? m role with
      | none => none
      | some idx =>
          if 0 ≤ idx ∧ idx < (nb : Int) then firstBad nb m rest
          else some (role, idx)) := rfl

theorem buildB_keys (bands : List Arr) (m : BandMapping) :
    ∀ (req : List String) (B : List (String × Arr)),
      buildB bands m req = Except.ok B → B.map (fun p => p.1) = req := by
  intro req
  induction req with
  | nil =>
      intro B h
      have hB := Except.ok.inj h
      rw [← hB]
      rfl
  | cons role rest ih =>
      intro B h
      rw [buildB_cons] at h
      cases hg : dictGet? m role with
      | none => rw [hg] at h; cases h
      | some idx =>
          rw [hg] at h
          simp only [] at h
          by_cases hb : 0 ≤ idx ∧ idx < (bands.length : Int)
          · rw [if_pos hb] at h
            cases hr : buildB bands m rest with
            | error e => rw [hr] at h; cases h
            | ok Bt =>
                rw [hr] at h
                simp only [] at h
                have hB := Except.ok.inj h
                rw [← hB]
                simp [ih Bt hr]
          · rw [if_neg hb] at h
            cases h

theorem buildB_ok_of_firstBad_none (bands : List Arr) (m : BandMapping) :
    ∀ (req : List String),
      (∀ r, r ∈ req → hasKey m r = true) →
      firstBad bands.length m req = none →
      ∃ B, buildB bands m req = Except.ok B := by
  intro req
  induction req with
  | nil => intro _ _; exact ⟨[], rfl⟩
  | cons role rest ih =>
      intro hall hfb
      rcases dictGet?_isSome_of_hasKey m role
        (hall role (List.mem_cons_self _ _)) with ⟨idx, hg⟩
      rw [firstBad_cons, hg] at hfb
      simp only [] at hfb
      by_cases hb : 0 ≤ idx ∧ idx < (bands.length : Int)
      · rw [if_pos hb] at hfb
        rcases ih (fun r hr => hall r (List.mem_cons_of_mem _ hr)) hfb with ⟨Bt, hBt⟩
        refine ⟨(role, bands.getD idx.toNat []) :: Bt, ?_⟩
        rw [buildB_cons, hg]
        simp only []
        rw [if_pos hb, hBt]
      · rw [if_neg hb] at hfb
        cases hfb

theorem buildB_err_of_firstBad_some (bands : List Arr) (m : BandMapping) :
    ∀ (req : List String) (role : String) (idx : Int),
      (∀ r, r ∈ req → hasKey m r = true) →
      firstBad bands.length m req = some (role, idx) →
      buildB bands m req
        = Except.error (CalcError.bandIndexOutOfRange role idx) := by
  intro req
  induction req with
  | nil => intro role idx _ hfb; cases hfb
  | cons r0 rest ih =>
      intro role idx hall hfb
      rcases dictGet?_isSome_of_hasKey m r0
        (hall r0 (List.mem_cons_self _ _)) with ⟨v, hg⟩
      rw [firstBad_cons, hg] at hfb
      simp only [] at hfb
      by_cases hb : 0 ≤ v ∧ v < (bands.length : Int)
      · rw [if_pos hb] at hfb
        have := ih role idx (fun r hr => hall r (List.mem_cons_of_mem _ hr)) hfb
        rw [buildB_cons, hg]
        simp only []
        rw [if_pos hb, this]
      · rw [if_neg hb] at hfb
        have h1 := Option.some.inj hfb
        have hr : r0 = role := congrArg Prod.fst h1
        have hv : v = idx := congrArg Prod.snd h1
        rw [buildB_cons, hg]
        simp only []
        rw [if_neg hb, hr, hv]

theorem calculate_ok_inversion (bands : List Arr) (m : BandMapping)
    (n : String) (res : Arr) (d c : String) (r : ℚ × ℚ)
    (h : calculate_index bands m n = Except.ok (res, d, c, r)) :
    ∃ info B num den,
      lookupIndex n = some info ∧
      buildB bands m info.bands = Except.ok B ∧
      numDen n info.params B = Except.ok (num, den) ∧
      res = npDivide num den ∧ d = info.description ∧ c = info.colormap ∧
      r = info.range := by
  unfold calculate_index at h
  cases hl : lookupIndex n with
  | none => rw [hl] at h; cases h
  | some info =>
      rw [hl] at h
      simp only [] at h
      by_cases hm : (info.bands.filter (fun b => !hasKey m b)).isEmpty = true
      · rw [if_pos hm] at h
        cases hB : buildB bands m info.bands with
        | error e => rw [hB] at h; cases h
        | ok B =>
            rw [hB] at h
            simp only [] at h
            cases hnd : numDen n info.params B with
            | error e => rw [hnd] at h; cases h
            | ok nd =>
                rw [hnd] at h
                simp only [] at h
                have h2 := Except.ok.inj h
                refine ⟨info, B, nd.1, nd.2, rfl, hB, by rw [hnd], ?_, ?_, ?_, ?_⟩
                · exact (congrArg (fun q => q.1) h2).symm
                · exact (congrArg (fun q => q.2.1) h2).symm
                · exact (congrArg (fun q => q.2.2.1) h2).symm
                · exact (congrArg (fun q => q.2.2.2) h2).symm
      · rw [if_neg hm] at h
        cases h

theorem lookupIndex_mem_names (n : String) (info : IndexInfo)
    (h : lookupIndex n = some info) :
    n ∈ ["NDVI", "NDWI", "MNDWI", "NDBI", "SAVI",
         "EVI", "NDSI", "NDMI", "BSI", "NBR"] := by
  unfold lookupIndex at h
  cases hf : COMMON_INDICES.find? (fun q => q.1 == n) with
  | none => rw [hf] at h; cases h
  | some p =>
      have h1 := List.find?_some hf
      have h2 : p ∈ COMMON_INDICES := List.mem_of_find?_eq_some hf
      have h3 : p.1 ∈ COMMON_INDICES.map (fun q => q.1) :=
        List.mem_map_of_mem _ h2
      have h4 : p.1 = n := beq_iff_eq.mp h1
      rw [h4] at h3
      simpa [COMMON_INDICES] using h3

theorem hasKeyArr_of_mem_keys (B : List (String × Arr)) (k : String)
    (h : k ∈ B.map (fun p => p.1)) : hasKeyArr B k = true := by
  rcases List.mem_map.mp h with ⟨p, hp, he⟩
  exact List.any_eq_true.mpr ⟨p, hp, beq_iff_eq.mpr he⟩

theorem numDen_ok (n : String) (info : IndexInfo) (B : List (String × Arr))
    (h : lookupIndex n = some info)
    (hkeys : B.map (fun p => p.1) = info.bands) :
    ∃ nd, numDen n info.params B = Except.ok nd := by
  have hn := lookupIndex_mem_names n info h
  simp at hn
  rcases hn with h0 | h0 | h0 | h0 | h0 | h0 | h0 | h0 | h0 | h0 <;> subst h0
  · exact ⟨_, rfl⟩
  · exact ⟨_, rfl⟩
  · exact ⟨_, rfl⟩
  · exact ⟨_, rfl⟩
  · exact ⟨_, rfl⟩
  · exact ⟨_, rfl⟩
  · exact ⟨_, rfl⟩
  · exact ⟨_, rfl⟩
  · exact ⟨_, rfl⟩
  · have hinfo : info = infoNBR := by
      have : lookupIndex "NBR" = some infoNBR := rfl
      rw [this] at h
      exact (Option.some.inj h).symm
    have hk : hasKeyArr B roleSWIR2 = true := by
      apply hasKeyArr_of_mem_keys
      rw [hkeys, hinfo]
      decide
    refine ⟨(amap2 fsub (bGet B roleNIR) (bGet B roleSWIR2),
             amap2 fadd (bGet B roleNIR) (bGet B roleSWIR2)), ?_⟩
    simp [numDen, hk]

theorem calculate_unknown (bands : List Arr) (m : BandMapping) (n : String)
    (h : lookupIndex n = none) :
    calculate_index bands m n = Except.error (CalcError.unknownIndex n) := by
  unfold calculate_index
  rw [h]

theorem calculate_missing (bands : List Arr) (m : BandMapping) (n : String)
    (info : IndexInfo) (h : lookupIndex n = some info)
    (hm : (info.bands.filter (fun b => !hasKey m b)).isEmpty = false) :
    calculate_index bands m n = Except.error (CalcError.missingBandRole n
      (info.bands.filter (fun b => !hasKey m b))) := by
  unfold calculate_index
  rw [h]
  simp only []
  rw [if_neg (by rw [hm]; exact Bool.false_ne_true)]

theorem all_hasKey_of_filter_empty (m : BandMapping) (req : List String)
    (hm : (req.filter (fun b => !hasKey m b)).isEmpty = true) :
    ∀ r, r ∈ req → hasKey m r = true := by
  intro r hr
  by_contra hc
  have hfalse : hasKey m r = false := by
    cases hx : hasKey m r with
    | false => rfl
    | true => exact absurd hx hc
  have hmem : r ∈ req.filter (fun b => !hasKey m b) :=
    List.mem_filter.mpr ⟨hr, by rw [hfalse]; rfl⟩
  rw [List.isEmpty_iff] at hm
  rw [hm] at hmem
  cases hmem

theorem calculate_oob (bands : List Arr) (m : BandMapping) (n : String)
    (info : IndexInfo) (role : String) (idx : Int)
    (h : lookupIndex n = some info)
    (hm : (info.bands.filter (fun b => !hasKey m b)).isEmpty = true)
    (hfb : firstBad bands.length m info.bands = some (role, idx)) :
    calculate_index bands m n
      = Except.error (CalcError.bandIndexOutOfRange role idx) := by
  have hall := all_hasKey_of_filter_empty m info.bands hm
  have hB := buildB_err_of_firstBad_some bands m info.bands role idx hall hfb
  unfold calculate_index
  rw [h]
  simp only []
  rw [if_pos hm, hB]

theorem calculate_ok_of_valid (bands : List Arr) (m : BandMapping) (n : String)
    (info : IndexInfo) (h : lookupIndex n = some info)
    (hm : (info.bands.filter (fun b => !hasKey m b)).isEmpty = true)
    (hfb : firstBad bands.length m info.bands = none) :
    ∃ out, calculate_index bands m n = Except.ok out := by
  have hall := all_hasKey_of_filter_empty m info.bands hm
  rcases buildB_ok_of_firstBad_none bands m info.bands hall hfb with ⟨B, hB⟩
  rcases numDen_ok n info B h (buildB_keys bands m info.bands B hB) with ⟨nd, hnd⟩
  refine ⟨(npDivide nd.1 nd.2, info.description, info.colormap, info.range), ?_⟩
  unfold calculate_index
  rw [h]
  simp only []
  rw [if_pos hm, hB]
  simp only []
  rw [hnd]

theorem amap2_cell (f : F → F → F) (a b : Arr) (i j : Nat) (v : F)
    (h : aGet? (amap2 f a b) i j = some v) :
    ∃ x y, aGet? a i j = some x ∧ aGet? b i j = some y ∧ v = f x y := by
  rw [aGet?_amap2] at h
  cases ha : aGet? a i j with
  | none => rw [ha] at h; simp at h
  | some x =>
      rw [ha] at h
      cases hb : aGet? b i j with
      | none => rw [hb] at h; simp at h
      | some y =>
          rw [hb] at h
          simp at h
          exact ⟨x, y, rfl, rfl, h.symm⟩

theorem amap_cell (f : F → F) (a : Arr) (i j : Nat) (v : F)
    (h : aGet? (amap f a) i j = some v) :
    ∃ x, aGet? a i j = some x ∧ v = f x := by
  rw [aGet?_amap] at h
  cases ha : aGet? a i j with
  | none => rw [ha] at h; simp at h
  | some x =>
      rw [ha] at h
      simp at h
      exact ⟨x, rfl, h.symm⟩

theorem npDivide_cell (num den : Arr) (i j : Nat) (v : F)
    (h : aGet? (npDivide num den) i j = some v) :
    ∃ x y, aGet? num i j = some x ∧ aGet? den i j = some y ∧
      v = (if npNe0 y = true then fdiv x y else F.nan) := by
  unfold npDivide at h
  exact amap2_cell _ num den i j v h

theorem npNe0_fin_zero : npNe0 (F.fin 0) = false := by
  simp [npNe0]

theorem npNe0_of_ne_zero (x : F) (h : x ≠ F.fin 0) : npNe0 x = true := by
  cases x with
  | nan => rfl
  | fin q =>
      simp [npNe0]
      intro hq
      exact h (by rw [hq])

theorem ifdiv_nan (x y : F) (h : x = F.nan ∨ y = F.nan) :
    (if npNe0 y = true then fdiv x y else F.nan) = F.nan := by
  rcases h with h | h
  · subst h
    by_cases hy : npNe0 y = true
    · simp [hy, fdiv_nan_left]
    · simp [hy]
  · subst h
    simp [npNe0, fdiv_nan_right]

theorem zip_div_row (ra rb : List F)
    (h : ∀ (j : Nat) x y, ra[j]? = some x → rb[j]? = some y →
      fadd x y ≠ F.fin 0) :
    List.zipWith (fun x y => if npNe0 y = true then fdiv x y else F.nan)
        (List.zipWith fsub ra rb) (List.zipWith fadd ra rb)
      = List.zipWith (fun x y => fdiv (fsub x y) (fadd x y)) ra rb := by
  induction ra generalizing rb with
  | nil => simp
  | cons x xs ih =>
      cases rb with
      | nil => simp
      | cons y ys =>
          simp only [List.zipWith]
          congr 1
          · rw [npNe0_of_ne_zero _ (h 0 x y (by simp) (by simp))]
            simp
          · exact ih ys (fun j a b hja hjb =>
              h (j + 1) a b (by simpa using hja) (by simpa using hjb))

theorem npDivide_sub_add (a b : Arr)
    (h : ∀ i j x y, aGet? a i j = some x → aGet? b i j = some y →
      fadd x y ≠ F.fin 0) :
    npDivide (amap2 fsub a b) (amap2 fadd a b)
      = amap2 (fun x y => fdiv (fsub x y) (fadd x y)) a b := by
  unfold npDivide amap2
  induction a generalizing b with
  | nil => simp
  | cons ra rest ih =>
      cases b with
      | nil => simp
      | cons rb brest =>
          simp only [List.zipWith]
          congr 1
          · exact zip_div_row ra rb (fun j x y hx hy =>
              h 0 j x y (by simpa [aGet?] using hx) (by simpa [aGet?] using hy))
          · exact ih brest (fun i j x y hx hy =>
              h (i + 1) j x y (by simpa [aGet?] using hx)
                (by simpa [aGet?] using hy))

theorem nanprop_normdiff (a b : Arr) (i j : Nat) (v : F)
    (h : aGet? (npDivide (amap2 fsub a b) (amap2 fadd a b)) i j = some v)
    (hn : aGet? a i j = some F.nan ∨ aGet? b i j = some F.nan) : v = F.nan := by
  rcases npDivide_cell _ _ i j v h with ⟨x, y, hx, hy, hv⟩
  rcases amap2_cell fsub a b i j x hx with ⟨xa, xb, hxa, hxb, hxv⟩
  subst hv
  apply ifdiv_nan
  left
  rcases hn with hn | hn
  · rw [hxa] at hn
    have hnan : xa = F.nan := Option.some.inj hn
    rw [hxv, hnan, fsub_nan_left]
  · rw [hxb] at hn
    have hnan : xb = F.nan := Option.some.inj hn
    rw [hxv, hnan, fsub_nan_right]

theorem nanprop_savi (c L : ℚ) (a b : Arr) (i j : Nat) (v : F)
    (h : aGet? (npDivide
        (amap (fun x => fmul x (F.fin c)) (amap2 fsub a b))
        (amap (fun x => fadd x (F.fin L)) (amap2 fadd a b))) i j = some v)
    (hn : aGet? a i j = some F.nan ∨ aGet? b i j = some F.nan) : v = F.nan := by
  rcases npDivide_cell _ _ i j v h with ⟨x, y, hx, hy, hv⟩
  rcases amap_cell _ _ i j x hx with ⟨x0, hx0, hxv⟩
  rcases amap2_cell fsub a b i j x0 hx0 with ⟨xa, xb, hxa, hxb, hx0v⟩
  subst hv
  apply ifdiv_nan
  left
  rcases hn with hn | hn
  · rw [hxa] at hn
    have hnan : xa = F.nan := Option.some.inj hn
    rw [hxv, hx0v, hnan, fsub_nan_left, fmul_nan_left]
  · rw [hxb] at hn
    have hnan : xb = F.nan := Option.some.inj hn
    rw [hxv, hx0v, hnan, fsub_nan_right, fmul_nan_left]

theorem nanprop_evi (g c1 c2 L : ℚ) (a b c : Arr) (i j : Nat) (v : F)
    (h : aGet? (npDivide
        (amap (fun x => fmul (F.fin g) x) (amap2 fsub a b))
        (amap (fun x => fadd x (F.fin L))
          (amap2 fsub (amap2 fadd a (amap (fun x => fmul (F.fin c1) x) b))
            (amap (fun x => fmul (F.fin c2) x) c)))) i j = some v)
    (hn : aGet? a i j = some F.nan ∨ aGet? b i j = some F.nan ∨
      aGet? c i j = some F.nan) : v = F.nan := by
  rcases npDivide_cell _ _ i j v h with ⟨x, y, hx, hy, hv⟩
  rcases amap_cell _ _ i j x hx with ⟨x0, hx0, hxv⟩
  rcases amap2_cell fsub a b i j x0 hx0 with ⟨xa, xb, hxa, hxb, hx0v⟩
  subst hv
  apply ifdiv_nan
  rcases hn with hn | hn | hn
  · left
    rw [hxa] at hn
    have hnan : xa = F.nan := Option.some.inj hn
    rw [hxv, hx0v, hnan, fsub_nan_left, fmul_nan_right]
  · left
    rw [hxb] at hn
    have hnan : xb = F.nan := Option.some.inj hn
    rw [hxv, hx0v, hnan, fsub_nan_right, fmul_nan_right]
  · right
    rcases amap_cell _ _ i j y hy with ⟨y0, hy0, hyv⟩
    rcases amap2_cell fsub _ _ i j y0 hy0 with ⟨y1, y2, hy1, hy2, hy0v⟩
    rcases amap_cell _ _ i j y2 hy2 with ⟨yc, hyc, hy2v⟩
    rw [hyc] at hn
    have hnan : yc = F.nan := Option.some.inj hn
    rw [hyv, hy0v, hy2v, hnan, fmul_nan_right, fsub_nan_right, fadd_nan_left]

theorem nanprop_bsi (a b c d : Arr) (i j : Nat) (v : F)
    (h : aGet? (npDivide
        (amap2 fsub (amap2 fadd a b) (amap2 fadd c d))
        (amap2 fadd (amap2 fadd a b) (amap2 fadd c d))) i j = some v)
    (hn : aGet? a i j = some F.nan ∨ aGet? b i j = some F.nan ∨
      aGet? c i j = some F.nan ∨ aGet? d i j = some F.nan) : v = F.nan := by
  rcases npDivide_cell _ _ i j v h with ⟨x, y, hx, hy, hv⟩
  rcases amap2_cell fsub _ _ i j x hx with ⟨x1, x2, hx1, hx2, hxv⟩
  rcases amap2_cell fadd a b i j x1 hx1 with ⟨xa, xb, hxa, hxb, hx1v⟩
  rcases amap2_cell fadd c d i j x2 hx2 with ⟨xc, xd, hxc, hxd, hx2v⟩
  subst hv
  apply ifdiv_nan
  left
  rcases hn with hn | hn | hn | hn
  · rw [hxa] at hn
    have hnan : xa = F.nan := Option.some.inj hn
    rw [hxv, hx1v, hnan, fadd_nan_left, fsub_nan_left]
  · rw [hxb] at hn
    have hnan : xb = F.nan := Option.some.inj hn
    rw [hxv, hx1v, hnan, fadd_nan_right, fsub_nan_left]
  · rw [hxc] at hn
    have hnan : xc = F.nan := Option.some.inj hn
    rw [hxv, hx2v, hnan, fadd_nan_left, fsub_nan_right]
  · rw [hxd] at hn
    have hnan : xd = F.nan := Option.some.inj hn
    rw [hxv, hx2v, hnan, fadd_nan_right, fsub_nan_right]

theorem map_fst_two (B : List (String × Arr)) (r1 r2 : String)
    (h : B.map (fun p => p.1) = [r1, r2]) :
    ∃ a1 a2, B = [(r1, a1), (r2, a2)] := by
  cases B with
  | nil => simp at h
  | cons p1 B1 =>
      cases B1 with
      | nil => simp at h
      | cons p2 B2 =>
          cases B2 with
          | cons p3 B3 => simp at h
          | nil =>
              simp at h
              exact ⟨p1.2, p2.2, by rw [← h.1, ← h.2]⟩

theorem map_fst_three (B : List (String × Arr)) (r1 r2 r3 : String)
    (h : B.map (fun p => p.1) = [r1, r2, r3]) :
    ∃ a1 a2 a3, B = [(r1, a1), (r2, a2), (r3, a3)] := by
  cases B with
  | nil => simp at h
  | cons p1 B1 =>
      cases B1 with
      | nil => simp at h
      | cons p2 B2 =>
          cases B2 with
          | nil => simp at h
          | cons p3 B3 =>
              cases B3 with
              | cons p4 B4 => simp at h
              | nil =>
                  simp at h
                  exact ⟨p1.2, p2.2, p3.2, by rw [← h.1, ← h.2.1, ← h.2.2]⟩

theorem map_fst_four (B : List (String × Arr)) (r1 r2 r3 r4 : String)
    (h : B.map (fun p => p.1) = [r1, r2, r3, r4]) :
    ∃ a1 a2 a3 a4, B = [(r1, a1), (r2, a2), (r3, a3), (r4, a4)] := by
  cases B with
  | nil => simp at h
  | cons p1 B1 =>
      cases B1 with
      | nil => simp at h
      | cons p2 B2 =>
          cases B2 with
          | nil => simp at h
          | cons p3 B3 =>
              cases B3 with
              | nil => simp at h
              | cons p4 B4 =>
                  cases B4 with
                  | cons p5 B5 => simp at h
                  | nil =>
                      simp at h
                      exact ⟨p1.2, p2.2, p3.2, p4.2,
                        by rw [← h.1, ← h.2.1, ← h.2.2.1, ← h.2.2.2]⟩

theorem nanprop_shapeA (r1 r2 : String) (a1 a2 arr : Arr) (role : String)
    (i j : Nat) (v : F)
    (hmem : (role, arr) ∈ [(r1, a1), (r2, a2)])
    (hres : aGet? (npDivide (amap2 fsub a1 a2) (amap2 fadd a1 a2)) i j
      = some v)
    (hnan : aGet? arr i j = some F.nan) : v = F.nan := by
  simp at hmem
  rcases hmem with ⟨h1, h2⟩ | ⟨h1, h2⟩
  · rw [h2] at hnan
    exact nanprop_normdiff a1 a2 i j v hres (Or.inl hnan)
  · rw [h2] at hnan
    exact nanprop_normdiff a1 a2 i j v hres (Or.inr hnan)

theorem nanprop_shapeSAVI (c L : ℚ) (r1 r2 : String) (a1 a2 arr : Arr)
    (role : String) (i j : Nat) (v : F)
    (hmem : (role, arr) ∈ [(r1, a1), (r2, a2)])
    (hres : aGet? (npDivide
        (amap (fun x => fmul x (F.fin c)) (amap2 fsub a1 a2))
        (amap (fun x => fadd x (F.fin L)) (amap2 fadd a1 a2))) i j = some v)
    (hnan : aGet? arr i j = some F.nan) : v = F.nan := by
  simp at hmem
  rcases hmem with ⟨h1, h2⟩ | ⟨h1, h2⟩
  · rw [h2] at hnan
    exact nanprop_savi c L a1 a2 i j v hres (Or.inl hnan)
  · rw [h2] at hnan
    exact nanprop_savi c L a1 a2 i j v hres (Or.inr hnan)

theorem nanprop_shapeEVI (g c1 c2 L : ℚ) (r1 r2 r3 : String)
    (a1 a2 a3 arr : Arr) (role : String) (i j : Nat) (v : F)
    (hmem : (role, arr) ∈ [(r1, a1), (r2, a2), (r3, a3)])
    (hres : aGet? (npDivide
        (amap (fun x => fmul (F.fin g) x) (amap2 fsub a1 a2))
        (amap (fun x => fadd x (F.fin L))
          (amap2 fsub (amap2 fadd a1 (amap (fun x => fmul (F.fin c1) x) a2))
            (amap (fun x => fmul (F.fin c2) x) a3)))) i j = some v)
    (hnan : aGet? arr i j = some F.nan) : v = F.nan := by
  simp at hmem
  rcases hmem with ⟨h1, h2⟩ | ⟨h1, h2⟩ | ⟨h1, h2⟩
  · rw [h2] at hnan
    exact nanprop_evi g c1 c2 L a1 a2 a3 i j v hres (Or.inl hnan)
  · rw [h2] at hnan
    exact nanprop_evi g c1 c2 L a1 a2 a3 i j v hres (Or.inr (Or.inl hnan))
  · rw [h2] at hnan
    exact nanprop_evi g c1 c2 L a1 a2 a3 i j v hres (Or.inr (Or.inr hnan))

theorem nanprop_shapeBSI (r1 r2 r3 r4 : String) (a1 a2 a3 a4 arr : Arr)
    (role : String) (i j : Nat) (v : F)
    (hmem : (role, arr) ∈ [(r1, a1), (r2, a2), (r3, a3), (r4, a4)])
    (hres : aGet? (npDivide
        (amap2 fsub (amap2 fadd a1 a2) (amap2 fadd a3 a4))
        (amap2 fadd (amap2 fadd a1 a2) (amap2 fadd a3 a4))) i j = some v)
    (hnan : aGet? arr i j = some F.nan) : v = F.nan := by
  simp at hmem
  rcases hmem with ⟨h1, h2⟩ | ⟨h1, h2⟩ | ⟨h1, h2⟩ | ⟨h1, h2⟩
  · rw [h2] at hnan
    exact nanprop_bsi a1 a2 a3 a4 i j v hres (Or.inl hnan)
  · rw [h2] at hnan
    exact nanprop_bsi a1 a2 a3 a4 i j v hres (Or.inr (Or.inl hnan))
  · rw [h2] at hnan
    exact nanprop_bsi a1 a2 a3 a4 i j v hres (Or.inr (Or.inr (Or.inl hnan)))
  · rw [h2] at hnan
    exact nanprop_bsi a1 a2 a3 a4 i j v hres (Or.inr (Or.inr (Or.inr hnan)))

theorem calculate_nan_propagation (bands : List Arr) (m : BandMapping)
    (n : String) (res : Arr) (d c : String) (r : ℚ × ℚ) (info : IndexInfo)
    (B : List (String × Arr))
    (hok : calculate_index bands m n = Except.ok (res, d, c, r))
    (hl : lookupIndex n = some info)
    (hB : buildB bands m info.bands = Except.ok B) :
    ∀ role arr, (role, arr) ∈ B →
      ∀ i j v, aGet? res i j = some v → aGet? arr i j = some F.nan →
        v = F.nan := by
  intro role arr hmem i j v hres hnan
  rcases calculate_ok_inversion bands m n res d c r hok with
    ⟨info2, B2, num, den, hl2, hB2, hnum, hres_eq, -, -, -⟩
  have hinfo : info = info2 := Option.some.inj (hl.symm.trans hl2)
  subst hinfo
  have hBB : B = B2 := Except.ok.inj (hB.symm.trans hB2)
  subst hBB
  have hkeys := buildB_keys bands m info.bands B hB
  have hnames := lookupIndex_mem_names n info hl
  simp at hnames
  rcases hnames with h0 | h0 | h0 | h0 | h0 | h0 | h0 | h0 | h0 | h0 <;> subst h0
  · have hinfo2 : info = infoNDVI := Option.some.inj
      (hl.symm.trans (show lookupIndex "NDVI" = some infoNDVI from rfl))
    subst hinfo2
    rcases map_fst_two B roleNIR roleRed hkeys with ⟨a1, a2, hBdef⟩
    subst hBdef
    have hnd : numDen "NDVI" infoNDVI.params [(roleNIR, a1), (roleRed, a2)]
        = Except.ok (amap2 fsub a1 a2, amap2 fadd a1 a2) := rfl
    have hpair := Except.ok.inj (hnd.symm.trans hnum)
    injection hpair with e1 e2
    rw [hres_eq, ← e1, ← e2] at hres
    exact nanprop_shapeA roleNIR roleRed a1 a2 arr role i j v hmem hres hnan
  · have hinfo2 : info = infoNDWI := Option.some.inj
      (hl.symm.trans (show lookupIndex "NDWI" = some infoNDWI from rfl))
    subst hinfo2
    rcases map_fst_two B roleGreen roleNIR hkeys with ⟨a1, a2, hBdef⟩
    subst hBdef
    have hnd : numDen "NDWI" infoNDWI.params [(roleGreen, a1), (roleNIR, a2)]
        = Except.ok (amap2 fsub a1 a2, amap2 fadd a1 a2) := rfl
    have hpair := Except.ok.inj (hnd.symm.trans hnum)
    injection hpair with e1 e2
    rw [hres_eq, ← e1, ← e2] at hres
    exact nanprop_shapeA roleGreen roleNIR a1 a2 arr role i j v hmem hres hnan
  · have hinfo2 : info = infoMNDWI := Option.some.inj
      (hl.symm.trans (show lookupIndex "MNDWI" = some infoMNDWI from rfl))
    subst hinfo2
    rcases map_fst_two B roleGreen roleSWIR1 hkeys with ⟨a1, a2, hBdef⟩
    subst hBdef
    have hnd : numDen "MNDWI" infoMNDWI.params
        [(roleGreen, a1), (roleSWIR1, a2)]
        = Except.ok (amap2 fsub a1 a2, amap2 fadd a1 a2) := rfl
    have hpair := Except.ok.inj (hnd.symm.trans hnum)
    injection hpair with e1 e2
    rw [hres_eq, ← e1, ← e2] at hres
    exact nanprop_shapeA roleGreen roleSWIR1 a1 a2 arr role i j v hmem hres hnan
  · have hinfo2 : info = infoNDBI := Option.some.inj
      (hl.symm.trans (show lookupIndex "NDBI" = some infoNDBI from rfl))
    subst hinfo2
    rcases map_fst_two B roleSWIR1 roleNIR hkeys with ⟨a1, a2, hBdef⟩
    subst hBdef
    have hnd : numDen "NDBI" infoNDBI.params [(roleSWIR1, a1), (roleNIR, a2)]
        = Except.ok (amap2 fsub a1 a2, amap2 fadd a1 a2) := rfl
    have hpair := Except.ok.inj (hnd.symm.trans hnum)
    injection hpair with e1 e2
    rw [hres_eq, ← e1, ← e2] at hres
    exact nanprop_shapeA roleSWIR1 roleNIR a1 a2 arr role i j v hmem hres hnan
  · have hinfo2 : info = infoSAVI := Option.some.inj
      (hl.symm.trans (show lookupIndex "SAVI" = some infoSAVI from rfl))
    subst hinfo2
    rcases map_fst_two B roleNIR roleRed hkeys with ⟨a1, a2, hBdef⟩
    subst hBdef
    have hnd : numDen "SAVI" infoSAVI.params [(roleNIR, a1), (roleRed, a2)]
        = Except.ok
          (amap (fun x => fmul x
              (F.fin (1 + paramGet infoSAVI.params ("L") (0.5))))
            (amap2 fsub a1 a2),
           amap (fun x => fadd x
              (F.fin (paramGet infoSAVI.params ("L") (0.5))))
            (amap2 fadd a1 a2)) := rfl
    have hpair := Except.ok.inj (hnd.symm.trans hnum)
    injection hpair with e1 e2
    rw [hres_eq, ← e1, ← e2] at hres
    exact nanprop_shapeSAVI _ _ roleNIR roleRed a1 a2 arr role i j v hmem
      hres hnan
  · have hinfo2 : info = infoEVI := Option.some.inj
      (hl.symm.trans (show lookupIndex "EVI" = some infoEVI from rfl))
    subst hinfo2
    rcases map_fst_three B roleNIR roleRed roleBlue hkeys with
      ⟨a1, a2, a3, hBdef⟩
    subst hBdef
    have hnd : numDen "EVI" infoEVI.params
        [(roleNIR, a1), (roleRed, a2), (roleBlue, a3)]
        = Except.ok
          (amap (fun x => fmul
              (F.fin (paramGet infoEVI.params ("G") (2.5))) x)
            (amap2 fsub a1 a2),
           amap (fun x => fadd x
              (F.fin (paramGet infoEVI.params ("L") (1.0))))
            (amap2 fsub
              (amap2 fadd a1
                (amap (fun x => fmul
                  (F.fin (paramGet infoEVI.params ("C1") (6.0))) x) a2))
              (amap (fun x => fmul
                (F.fin (paramGet infoEVI.params ("C2") (7.5))) x) a3))) := rfl
    have hpair := Except.ok.inj (hnd.symm.trans hnum)
    injection hpair with e1 e2
    rw [hres_eq, ← e1, ← e2] at hres
    exact nanprop_shapeEVI _ _ _ _ roleNIR roleRed roleBlue a1 a2 a3 arr role
      i j v hmem hres hnan
  · have hinfo2 : info = infoNDSI := Option.some.inj
      (hl.symm.trans (show lookupIndex "NDSI" = some infoNDSI from rfl))
    subst hinfo2
    rcases map_fst_two B roleGreen roleSWIR1 hkeys with ⟨a1, a2, hBdef⟩
    subst hBdef
    have hnd : numDen "NDSI" infoNDSI.params
        [(roleGreen, a1), (roleSWIR1, a2)]
        = Except.ok (amap2 fsub a1 a2, amap2 fadd a1 a2) := rfl
    have hpair := Except.ok.inj (hnd.symm.trans hnum)
    injection hpair with e1 e2
    rw [hres_eq, ← e1, ← e2] at hres
    exact nanprop_shapeA roleGreen roleSWIR1 a1 a2 arr role i j v hmem hres hnan
  · have hinfo2 : info = infoNDMI := Option.some.inj
      (hl.symm.trans (show lookupIndex "NDMI" = some infoNDMI from rfl))
    subst hinfo2
    rcases map_fst_two B roleNIR roleSWIR1 hkeys with ⟨a1, a2, hBdef⟩
    subst hBdef
    have hnd : numDen "NDMI" infoNDMI.params
        [(roleNIR, a1), (roleSWIR1, a2)]
        = Except.ok (amap2 fsub a1 a2, amap2 fadd a1 a2) := rfl
    have hpair := Except.ok.inj (hnd.symm.trans hnum)
    injection hpair with e1 e2
    rw [hres_eq, ← e1, ← e2] at hres
    exact nanprop_shapeA roleNIR roleSWIR1 a1 a2 arr role i j v hmem hres hnan
  · have hinfo2 : info = infoBSI := Option.some.inj
      (hl.symm.trans (show lookupIndex "BSI" = some infoBSI from rfl))
    subst hinfo2
    rcases map_fst_four B roleSWIR1 roleRed roleNIR roleBlue hkeys with
      ⟨a1, a2, a3, a4, hBdef⟩
    subst hBdef
    have hnd : numDen "BSI" infoBSI.params
        [(roleSWIR1, a1), (roleRed, a2), (roleNIR, a3), (roleBlue, a4)]
        = Except.ok
          (amap2 fsub (amap2 fadd a1 a2) (amap2 fadd a3 a4),
           amap2 fadd (amap2 fadd a1 a2) (amap2 fadd a3 a4)) := rfl
    have hpair := Except.ok.inj (hnd.symm.trans hnum)
    injection hpair with e1 e2
    rw [hres_eq, ← e1, ← e2] at hres
    exact nanprop_shapeBSI roleSWIR1 roleRed roleNIR roleBlue a1 a2 a3 a4 arr
      role i j v hmem hres hnan
  · have hinfo2 : info = infoNBR := Option.some.inj
      (hl.symm.trans (show lookupIndex "NBR" = some infoNBR from rfl))
    subst hinfo2
    rcases map_fst_two B roleNIR roleSWIR2 hkeys with ⟨a1, a2, hBdef⟩
    subst hBdef
    have hnd : numDen "NBR" infoNBR.params [(roleNIR, a1), (roleSWIR2, a2)]
        = Except.ok (amap2 fsub a1 a2, amap2 fadd a1 a2) := rfl
    have hpair := Except.ok.inj (hnd.symm.trans hnum)
    injection hpair with e1 e2
    rw [hres_eq, ← e1, ← e2] at hres
    exact nanprop_shapeA roleNIR roleSWIR2 a1 a2 arr role i j v hmem hres hnan

theorem availLoop_mem (m : BandMapping) :
    ∀ (l : List (String × IndexInfo)) (n : String),
      n ∈ availLoop m l ↔
        ∃ info, (n, info) ∈ l ∧
          info.bands.all (fun b => hasKey m b) = true := by
  intro l
  induction l with
  | nil =>
      intro n
      simp [availLoop]
  | cons p rest ih =>
      intro n
      rcases p with ⟨nm, info0⟩
      unfold availLoop
      by_cases hc : info0.bands.all (fun b => hasKey m b) = true
      · rw [if_pos hc]
        constructor
        · intro h
          rcases List.mem_cons.mp h with h | h
          · refine ⟨info0, ?_, hc⟩
            rw [h]
            exact List.mem_cons_self _ _
          · rcases (ih n).mp h with ⟨info1, hm1, hall1⟩
            exact ⟨info1, List.mem_cons_of_mem _ hm1, hall1⟩
        · rintro ⟨info1, hm1, hall1⟩
          rcases List.mem_cons.mp hm1 with h | h
          · have hn : n = nm := congrArg Prod.fst h
            rw [hn]
            exact List.mem_cons_self _ _
          · exact List.mem_cons_of_mem _ ((ih n).mpr ⟨info1, h, hall1⟩)
      · rw [if_neg hc]
        constructor
        · intro h
          rcases (ih n).mp h with ⟨info1, hm1, hall1⟩
          exact ⟨info1, List.mem_cons_of_mem _ hm1, hall1⟩
        · rintro ⟨info1, hm1, hall1⟩
          rcases List.mem_cons.mp hm1 with h | h
          · have hinfo : info0 = info1 := (congrArg Prod.snd h).symm
            rw [← hinfo] at hall1
            exact absurd hall1 hc
          · exact (ih n).mpr ⟨info1, h, hall1⟩

theorem mem_keys_unique {α : Type} :
    ∀ (l : List (String × α)) (k : String) (a b : α),
      (l.map (fun p => p.1)).Nodup → (k, a) ∈ l → (k, b) ∈ l → a = b := by
  intro l
  induction l with
  | nil => intro k a b _ ha; cases ha
  | cons p rest ih =>
      intro k a b hnd ha hb
      have hnd1 : p.1 ∉ rest.map (fun q => q.1) :=
        (List.nodup_cons.mp hnd).1
      have hnd2 := (List.nodup_cons.mp hnd).2
      rcases List.mem_cons.mp ha with ha | ha <;>
        rcases List.mem_cons.mp hb with hb | hb
      · rw [← hb] at ha
        exact congrArg Prod.snd ha
      · exfalso
        apply hnd1
        rw [← ha]
        exact List.mem_map_of_mem (fun q => q.1) hb
      · exfalso
        apply hnd1
        rw [← hb]
        exact List.mem_map_of_mem (fun q => q.1) ha
      · exact ih k a b hnd2 ha hb

theorem lookupIndex_mem (n : String) (info : IndexInfo)
    (h : lookupIndex n = some info) : (n, info) ∈ COMMON_INDICES := by
  unfold lookupIndex at h
  cases hf : COMMON_INDICES.find? (fun q => q.1 == n) with
  | none => rw [hf] at h; cases h
  | some p =>
      rw [hf] at h
      have h1 := List.find?_some hf
      have h2 : p ∈ COMMON_INDICES := List.mem_of_find?_eq_some hf
      have h4 : p.1 = n := beq_iff_eq.mp h1
      have h5 : p.2 = info := Option.some.inj h
      rw [← h4, ← h5]
      exact h2

theorem registry_keys_nodup :
    (COMMON_INDICES.map (fun p => p.1)).Nodup := by decide

theorem registry_bands_nonempty :
    ∀ p, p ∈ COMMON_INDICES → p.2.bands ≠ [] := by decide

theorem guess_no_swir_fires (names : List String) :
    swirFix (fallback (assignRoles patterns names [] []).1
        (assignRoles patterns names [] []).2 names.length)
      = fallback (assignRoles patterns names [] []).1
          (assignRoles patterns names [] []).2 names.length := by
  obtain ⟨hv1, hinj1, hnd1, -, hkeys1⟩ := assignRoles_inv patterns names [] []
    (by intro p hp; cases hp) (by intro p q hp hq he2; cases hp)
    (by simp [keysOf])
  obtain ⟨-, -, -, hkeys2⟩ := fallback_inv (assignRoles patterns names [] []).1
    (assignRoles patterns names [] []).2 names.length hv1 hinj1 hnd1
  apply swirFix_of_no_swir
  cases hx : hasKey (fallback (assignRoles patterns names [] []).1
      (assignRoles patterns names [] []).2 names.length) roleSWIR with
  | false => rfl
  | true =>
      exfalso
      rcases hkeys2 roleSWIR hx with h | h
      · rcases hkeys1 roleSWIR h with h2 | h2
        · simp [hasKey] at h2
        · exact absurd h2 (by decide)
      · exact absurd h (by decide)

/-- C1: over same-shaped band arrays, `calculate_index` absorbs degenerate
arithmetic instead of raising: (1) every output cell whose denominator cell
is exactly zero is the NaN sentinel (neither an exception nor an infinity —
the masked division writes the NaN fill there); (2) every output cell one of
whose selected input band cells is NaN is NaN, for every index of the
registry; (3) once the structural validation passes, evaluation always
returns a result, never an error, whatever the array contents; (4) in
particular NDVI on single-pixel bands NIR=0, Red=0 yields a single-pixel
NaN array. -/
theorem C1_safe_division :
    (∀ (bands : List Arr) (m : BandMapping) (n : String) (res : Arr)
        (d c : String) (r : ℚ × ℚ) (num den : Arr),
      calculate_index bands m n = Except.ok (res, d, c, r) →
      numDenOf bands m n = some (num, den) →
      ∀ i j v, aGet? res i j = some v →
        aGet? den i j = some (F.fin 0) → v = F.nan) ∧
    (∀ (bands : List Arr) (m : BandMapping) (n : String) (res : Arr)
        (d c : String) (r : ℚ × ℚ) (info : IndexInfo)
        (B : List (String × Arr)),
      calculate_index bands m n = Except.ok (res, d, c, r) →
      lookupIndex n = some info →
      buildB bands m info.bands = Except.ok B →
      ∀ role arr, (role, arr) ∈ B →
        ∀ i j v, aGet? res i j = some v → aGet? arr i j = some F.nan →
          v = F.nan) ∧
    (∀ (bands : List Arr) (m : BandMapping) (n : String) (info : IndexInfo),
      lookupIndex n = some info →
      (info.bands.filter (fun b => !hasKey m b)).isEmpty = true →
      firstBad bands.length m info.bands = none →
      ∃ out, calculate_index bands m n = Except.ok out) ∧
    calculate_index [[[F.fin 0]], [[F.fin 0]]] [(roleNIR, 0), (roleRed, 1)]
        "NDVI"
      = Except.ok ([[F.nan]], infoNDVI.description, infoNDVI.colormap,
          infoNDVI.range) := by
  refine ⟨?_, ?_, ?_, ?_⟩
  · intro bands m n res d c r num den hok hnd i j v hres hden
    rcases calculate_ok_inversion bands m n res d c r hok with
      ⟨info, B, num2, den2, hl, hB, hnum, hres_eq, -, -, -⟩
    have hndOf : numDenOf bands m n = some (num2, den2) := by
      unfold numDenOf
      rw [hl]
      simp only []
      rw [hB]
      simp only []
      rw [hnum]
    rw [hndOf] at hnd
    have hpair := Option.some.inj hnd
    injection hpair with e1 e2
    rw [hres_eq] at hres
    rcases npDivide_cell num2 den2 i j v hres with ⟨x, y, hx, hy, hv⟩
    rw [e2] at hy
    have hy0 : y = F.fin 0 := Option.some.inj (hy.symm.trans hden)
    rw [hv, hy0, npNe0_fin_zero]
    simp
  · intro bands m n res d c r info B hok hl hB
    exact calculate_nan_propagation bands m n res d c r info B hok hl hB
  · intro bands m n info hl hmiss hfb
    exact calculate_ok_of_valid bands m n info hl hmiss hfb
  · with_unfolding_all rfl

theorem C1_safe_division_witness :
    ∃ out, calculate_index [[[F.fin 1]], [[F.fin 2]]]
        [(roleNIR, 0), (roleRed, 1)] "NDVI" = Except.ok out :=
  C1_safe_division.2.2.1 [[[F.fin 1]], [[F.fin 2]]]
    [(roleNIR, 0), (roleRed, 1)] "NDVI" infoNDVI rfl (by decide) (by decide)

/-- C2 (code bug): for `band_names = ["x1","x2","x3","x4"]` no pattern
matches, the ≥4-band positional fallback fires, and `guess_band_types`
assigns NIR position 4 although only 4 bands (positions 0–3) exist: the
fallback does not compare its candidate positions with the band count, so
the claimed guard is absent from the code. -/
theorem C2_fallback_out_of_range :
    guess_band_types ["x1", "x2", "x3", "x4"]
      = [(roleBlue, 1), (roleGreen, 2), (roleRed, 3), (roleNIR, 4)] ∧
    dictGet? (guess_band_types ["x1", "x2", "x3", "x4"]) roleNIR = some 4 ∧
    (["x1", "x2", "x3", "x4"] : List String).length = 4 :=
  ⟨by decide, by decide, rfl⟩

/-- C3 counterexample: in `["b8", "b8a"]` the name at position 1 matches
NIR's most specific pattern `\bb8a\b`, yet the inferencer assigns NIR to
position 0, because patterns are tried name-by-name (all patterns against
the first name before any pattern sees the second) and "b8" already matches
the less specific `\bb8\b`.  So the claim as stated fails. -/
theorem C3_most_specific_counterexample :
    nirPatterns.head? = some patB8A ∧
    reSearch patB8A (lowerName ("b8a")) = true ∧
    (["b8", "b8a"] : List String)[1]? = some "b8a" ∧
    guess_band_types ["b8", "b8a"] = [(roleNIR, 0)] ∧
    ¬ dictGet? (guess_band_types ["b8", "b8a"]) roleNIR = some 1 :=
  ⟨rfl, by decide, rfl, by decide, by decide⟩

/-- C3 amended: if the name at position `i` matches NIR's most specific
pattern `\bb8a\b` and no earlier name matches any NIR pattern, then the
inferencer assigns NIR to position `i`, and no other role is assigned that
same position. -/
theorem C3_most_specific_amended (band_names : List String) (i : Nat)
    (nm : String)
    (h1 : band_names[i]? = some nm)
    (h2 : reSearch patB8A (lowerName nm) = true)
    (h3 : ∀ j nm0, j < i → band_names[j]? = some nm0 →
      anyPatternMatches nirPatterns nm0 = false) :
    dictGet? (guess_band_types band_names) roleNIR = some (Int.ofNat i) ∧
    (∀ r v, r ≠ roleNIR → (r, v) ∈ guess_band_types band_names →
      v ≠ Int.ofNat i) := by
  have h2' : anyPatternMatches nirPatterns nm = true :=
    List.any_eq_true.mpr ⟨patB8A, by decide, h2⟩
  have hmem := guess_nir_entry band_names i nm h1 h2' h3
  have hmain := guess_main band_names
  constructor
  · exact dictGet?_of_mem _ roleNIR (Int.ofNat i) hmain.2.1 hmem
  · intro r v hr hv hveq
    rw [hveq] at hv
    exact hr (hmain.1 (r, Int.ofNat i) (roleNIR, Int.ofNat i) hv hmem rfl)

theorem C3_most_specific_amended_witness :
    dictGet? (guess_band_types ["x", "b8a"]) roleNIR = some (Int.ofNat 1) :=
  (C3_most_specific_amended ["x", "b8a"] 1 "b8a" rfl (by decide)
    (by
      intro j nm0 hj hg
      have hj0 : j = 0 := Nat.lt_one_iff.mp hj
      rw [hj0] at hg
      have : nm0 = "x" := (Option.some.inj hg).symm
      rw [this]
      decide)).1

/-- C4: the mapping returned by `guess_band_types` is injective — no two
distinct roles are mapped to the same band position, whether a role was
assigned by pattern matching, by the positional fallback, or renamed by the
SWIR step. -/
theorem C4_injective_mapping (band_names : List String) (r1 r2 : String)
    (v1 v2 : Int)
    (h1 : (r1, v1) ∈ guess_band_types band_names)
    (h2 : (r2, v2) ∈ guess_band_types band_names)
    (hv : v1 = v2) : r1 = r2 :=
  (guess_main band_names).1 (r1, v1) (r2, v2) h1 h2 hv

theorem C4_injective_mapping_witness : (roleRed : String) = roleRed :=
  C4_injective_mapping ["red", "green"] roleRed roleRed 0 0 (by decide)
    (by decide) rfl

/-- C5: for every role mapping and every registry index, the index is in
`get_available_indices` iff each of its required roles is a key of the
mapping; the empty mapping yields the empty list rather than an error. -/
theorem C5_available_iff :
    (∀ (m : BandMapping) (n : String) (info : IndexInfo),
      lookupIndex n = some info →
      (n ∈ get_available_indices m ↔
        info.bands.all (fun b => hasKey m b) = true)) ∧
    get_available_indices [] = [] := by
  constructor
  · intro m n info hl
    by_cases hme : m.isEmpty = true
    · have hm0 : m = [] := List.isEmpty_iff.mp hme
      subst hm0
      constructor
      · intro h
        rw [show get_available_indices [] = [] from rfl] at h
        cases h
      · intro hall
        exfalso
        have hmem := lookupIndex_mem n info hl
        have hne := registry_bands_nonempty (n, info) hmem
        cases hb : info.bands with
        | nil => exact hne hb
        | cons b bs =>
            rw [hb] at hall
            have hkb := List.all_eq_true.mp hall b (List.mem_cons_self _ _)
            simp [hasKey] at hkb
    · have hm' : m.isEmpty = false := by
        cases hx : m.isEmpty with
        | false => rfl
        | true => exact absurd hx hme
      have hgav : get_available_indices m = availLoop m COMMON_INDICES := by
        unfold get_available_indices
        rw [if_neg (by rw [hm']; exact Bool.false_ne_true)]
      rw [hgav, availLoop_mem m COMMON_INDICES n]
      constructor
      · rintro ⟨info1, hm1, hall1⟩
        have heq : info1 = info := mem_keys_unique COMMON_INDICES n info1 info
          registry_keys_nodup hm1 (lookupIndex_mem n info hl)
        rw [← heq]
        exact hall1
      · intro hall
        exact ⟨info, lookupIndex_mem n info hl, hall⟩
  · rfl

theorem C5_available_iff_witness :
    "NDVI" ∈ get_available_indices [(roleNIR, 0), (roleRed, 1)] ↔
      infoNDVI.bands.all
        (fun b => hasKey [(roleNIR, 0), (roleRed, 1)] b) = true :=
  C5_available_iff.1 [(roleNIR, 0), (roleRed, 1)] "NDVI" infoNDVI rfl

/-- C6: with the natural NIR/Red mapping and denominators nowhere exactly
zero, `calculate_index "NDVI"` returns the elementwise formula
(NIR − Red) / (NIR + Red) together with the NDVI registry metadata; on the
single-pixel bands NIR=3, Red=1 the value is exactly 1/2. -/
theorem C6_ndvi_formula :
    (∀ nir red : Arr,
      (∀ i j x y, aGet? nir i j = some x → aGet? red i j = some y →
        fadd x y ≠ F.fin 0) →
      calculate_index [nir, red] [(roleNIR, 0), (roleRed, 1)] "NDVI"
        = Except.ok (amap2 (fun x y => fdiv (fsub x y) (fadd x y)) nir red,
            infoNDVI.description, infoNDVI.colormap, infoNDVI.range)) ∧
    calculate_index [[[F.fin 3]], [[F.fin 1]]] [(roleNIR, 0), (roleRed, 1)]
        "NDVI"
      = Except.ok ([[F.fin (1/2)]], infoNDVI.description, infoNDVI.colormap,
          infoNDVI.range) := by
  constructor
  · intro nir red h
    have hbase : calculate_index [nir, red] [(roleNIR, 0), (roleRed, 1)]
        "NDVI"
        = Except.ok (npDivide (amap2 fsub nir red) (amap2 fadd nir red),
            infoNDVI.description, infoNDVI.colormap, infoNDVI.range) := rfl
    rw [hbase, npDivide_sub_add nir red h]
  · with_unfolding_all rfl

theorem C6_ndvi_formula_witness :
    calculate_index [([] : Arr), ([] : Arr)] [(roleNIR, 0), (roleRed, 1)]
        "NDVI"
      = Except.ok (amap2 (fun x y => fdiv (fsub x y) (fadd x y)) [] [],
          infoNDVI.description, infoNDVI.colormap, infoNDVI.range) :=
  C6_ndvi_formula.1 [] []
    (by intro i j x y hx hy; simp [aGet?] at hx)

/-- C7: `calculate_index` validates in a fixed order, each check failing
fast with its own error kind and no index computation performed: an unknown
index name yields `unknownIndex`; a known name with required roles absent
from the mapping yields `missingBandRole` carrying exactly the missing
roles in catalog order; a complete mapping with a position outside
`0 ≤ p < len(bands)` yields `bandIndexOutOfRange` carrying the first
offending role; the two concrete scenarios of the specification behave
accordingly. -/
theorem C7_validation_order :
    (∀ (bands : List Arr) (m : BandMapping) (n : String),
      lookupIndex n = none →
      calculate_index bands m n = Except.error (CalcError.unknownIndex n)) ∧
    (∀ (bands : List Arr) (m : BandMapping) (n : String) (info : IndexInfo),
      lookupIndex n = some info →
      (info.bands.filter (fun b => !hasKey m b)).isEmpty = false →
      calculate_index bands m n = Except.error (CalcError.missingBandRole n
        (info.bands.filter (fun b => !hasKey m b)))) ∧
    (∀ (bands : List Arr) (m : BandMapping) (n : String) (info : IndexInfo)
        (role : String) (idx : Int),
      lookupIndex n = some info →
      (info.bands.filter (fun b => !hasKey m b)).isEmpty = true →
      firstBad bands.length m info.bands = some (role, idx) →
      calculate_index bands m n
        = Except.error (CalcError.bandIndexOutOfRange role idx)) ∧
    calculate_index [[[F.fin 0]], [[F.fin 0]], [[F.fin 0]]]
        [(roleNIR, 0), (roleRed, 5)] "NDVI"
      = Except.error (CalcError.bandIndexOutOfRange roleRed 5) ∧
    calculate_index [[[F.fin 0]]] [(roleRed, 0)] "NDVI"
      = Except.error (CalcError.missingBandRole "NDVI" [roleNIR]) ∧
    calculate_index [] [] "FOO"
      = Except.error (CalcError.unknownIndex "FOO") :=
  ⟨calculate_unknown, calculate_missing, calculate_oob,
   by decide, by decide, by decide⟩

theorem C7_validation_order_witness :
    calculate_index [] [] "FOO"
        = Except.error (CalcError.unknownIndex "FOO") ∧
    calculate_index [[[F.fin 0]]] [(roleRed, 0)] "NDVI"
        = Except.error (CalcError.missingBandRole "NDVI" [roleNIR]) ∧
    calculate_index [[[F.fin 0]], [[F.fin 0]], [[F.fin 0]]]
        [(roleNIR, 0), (roleRed, 5)] "NDVI"
      = Except.error (CalcError.bandIndexOutOfRange roleRed 5) :=
  ⟨C7_validation_order.1 [] [] "FOO" rfl,
   C7_validation_order.2.1 [[[F.fin 0]]] [(roleRed, 0)] "NDVI" infoNDVI rfl
     (by decide),
   C7_validation_order.2.2.1 [[[F.fin 0]], [[F.fin 0]], [[F.fin 0]]]
     [(roleNIR, 0), (roleRed, 5)] "NDVI" infoNDVI roleRed 5 rfl (by decide)
     (by decide)⟩

/-- C8: the registry matches the specification catalog exactly, name by
name: the ten index codes in order, each index's required roles, and the
numeric parameters (SAVI's L and EVI's G, C1, C2, L; all other entries have
no parameters). -/
theorem C8_registry_catalog :
    COMMON_INDICES.map (fun p => p.1)
      = ["NDVI", "NDWI", "MNDWI", "NDBI", "SAVI",
         "EVI", "NDSI", "NDMI", "BSI", "NBR"] ∧
    (lookupIndex "NDVI").map (fun q => q.bands)
      = some [roleNIR, roleRed] ∧
    (lookupIndex "NDWI").map (fun q => q.bands)
      = some [roleGreen, roleNIR] ∧
    (lookupIndex "MNDWI").map (fun q => q.bands)
      = some [roleGreen, roleSWIR1] ∧
    (lookupIndex "NDBI").map (fun q => q.bands)
      = some [roleSWIR1, roleNIR] ∧
    (lookupIndex "SAVI").map (fun q => q.bands)
      = some [roleNIR, roleRed] ∧
    (lookupIndex "EVI").map (fun q => q.bands)
      = some [roleNIR, roleRed, roleBlue] ∧
    (lookupIndex "NDSI").map (fun q => q.bands)
      = some [roleGreen, roleSWIR1] ∧
    (lookupIndex "NDMI").map (fun q => q.bands)
      = some [roleNIR, roleSWIR1] ∧
    (lookupIndex "BSI").map (fun q => q.bands)
      = some [roleSWIR1, roleRed, roleNIR, roleBlue] ∧
    (lookupIndex "NBR").map (fun q => q.bands)
      = some [roleNIR, roleSWIR2] ∧
    (lookupIndex "SAVI").map (fun q => q.params)
      = some [("L", 0.5)] ∧
    (lookupIndex "EVI").map (fun q => q.params)
      = some [("G", 2.5), ("C1", 6.0), ("C2", 7.5), ("L", 1.0)] ∧
    (lookupIndex "NDVI").map (fun q => q.params) = some [] ∧
    (lookupIndex "NDWI").map (fun q => q.params) = some [] ∧
    (lookupIndex "MNDWI").map (fun q => q.params) = some [] ∧
    (lookupIndex "NDBI").map (fun q => q.params) = some [] ∧
    (lookupIndex "NDSI").map (fun q => q.params) = some [] ∧
    (lookupIndex "NDMI").map (fun q => q.params) = some [] ∧
    (lookupIndex "BSI").map (fun q => q.params) = some [] ∧
    (lookupIndex "NBR").map (fun q => q.params) = some [] :=
  ⟨rfl, rfl, rfl, rfl, rfl, rfl, rfl, rfl, rfl, rfl, rfl, rfl, rfl, rfl,
   rfl, rfl, rfl, rfl, rfl, rfl, rfl⟩

/-- C10: the inferencer's output keys are always among the six fixed roles;
the empty input yields the empty mapping; the bare "SWIR" key never occurs,
so the post-hoc "SWIR"→"SWIR1" renaming branch never fires (the final step
of the pipeline is the identity). -/
theorem C10_inferred_keys :
    guess_band_types [] = [] ∧
    (∀ (band_names : List String) (k : String) (v : Int),
      (k, v) ∈ guess_band_types band_names → k ∈ sixRoles) ∧
    (∀ band_names : List String,
      hasKey (guess_band_types band_names) roleSWIR = false) ∧
    (∀ band_names : List String,
      swirFix (fallback (assignRoles patterns band_names [] []).1
          (assignRoles patterns band_names [] []).2 band_names.length)
        = fallback (assignRoles patterns band_names [] []).1
            (assignRoles patterns band_names [] []).2 band_names.length) := by
  refine ⟨rfl, ?_, ?_, guess_no_swir_fires⟩
  · intro names k v hm
    exact (guess_main names).2.2 k ((hasKey_iff_mem _ k).mpr ⟨v, hm⟩)
  · intro names
    cases hx : hasKey (guess_band_types names) roleSWIR with
    | false => rfl
    | true => exact absurd ((guess_main names).2.2 roleSWIR hx) (by decide)

theorem C10_inferred_keys_witness : (roleRed : String) ∈ sixRoles :=
  C10_inferred_keys.2.1 ["red"] roleRed 0 (by decide)
